import Mathlib

/-!
# Tasting-note proxy: Save and Delete handlers

A shallow embedding of `app/proxy/save/route.js` and `app/proxy/delete/route.js`, and
the properties of the two handlers that the specification states.

## The model

* JavaScript values are the inductive type `JS`; a JSON text is represented by the
  value it denotes, so `JSON.stringify v` is `stringify v` and the stored metafield is
  the value `JSON.parse` gives for its text.
* An object is the list of its properties in enumeration order; an array is the list
  of its elements.
* Strings are sequences of UTF-16 code units; one `Char` stands for one code unit.
* Finite numbers are rationals (the handlers do no arithmetic on them); `+0` and
  `-0` are identified, `NaN` and the infinities are separate values.
* `Number(v)` is `toNumber`: it throws a `TypeError` on a value that has no primitive
  value (`convertible`), and returns `numericValue` otherwise.
* Built-ins of the runtime whose result depends on the text of a string
  (`StringToNumber`, `toLowerCase`, `String(v)`, `JSON.parse`) are the fields of `Host`;
  `sampleHost` is a host for the concrete runs.
* A thrown exception is a value of `Thrown`, and a computation that may throw returns
  `Except Thrown`. Both route modules are strict code.
* The upstream store is a record of functions from the call made to its outcome, and
  every handler returns its reply together with the list of upstream calls it issued.

## The file

Definitions: values and operators, the merge step of Save, the Save handler, the
Delete handler, the vocabulary of the specification, sample data. Theorems: lemmas on
property lists, searches, loops and serialisation, then the claims `C1` to `C10`, each
with its witness or counterexample.
-/

namespace Tasting

/-! ## Values -/

/-- A JavaScript number. -/
inductive JNum
  | nan
  | posInf
  | negInf
  | fin (q : ℚ)
  deriving DecidableEq

/-- A JavaScript value, as produced by `JSON.parse` or built by the handlers. -/
inductive JS
  | undefined
  | null
  | bool (b : Bool)
  | num (n : JNum)
  | str (s : String)
  | arr (xs : List JS)
  | obj (kvs : List (String × JS))

/-- An exception value: a `TypeError` or `SyntaxError` raised by the runtime, or an
`Error` raised by a failed upstream call. -/
inductive Thrown
  | typeError
  | syntaxError
  | failed (msg : String)
  deriving DecidableEq

/-- Runtime built-ins that inspect the text of a string. -/
structure Host where
  /-- The abstract operation `StringToNumber`. -/
  stringToNumber : String → JNum
  /-- The method `String.prototype.toLowerCase`. -/
  toLowerCase : String → String
  /-- The conversion `String(v)`. -/
  toStr : JS → String
  /-- The function `JSON.parse`; `none` when it throws. -/
  jsonParse : String → Option JS

/-- The number `n` as a value. -/
def JS.int (n : Nat) : JS := .num (.fin n)

/-- Truthiness (`ToBoolean`). -/
def truthy : JS → Bool
  | .undefined => false
  | .null => false
  | .bool b => b
  | .num .nan => false
  | .num (.fin q) => decide (q ≠ 0)
  | .num _ => true
  | .str s => decide (s ≠ "")
  | .arr _ => true
  | .obj _ => true

/-- Whether the value is `null` or `undefined`. -/
def nullish : JS → Bool
  | .undefined => true
  | .null => true
  | _ => false

/-- The operator `a || b`. -/
def jsOr (a b : JS) : JS := if truthy a then a else b

/-- The operator `a ?? b`. -/
def jsCoalesce (a b : JS) : JS := if nullish a then b else a

/-- The operator `a === b` between a value of one parsed JSON text and a value of
another (or a primitive): two objects or arrays are then never the same reference. -/
def strictEq : JS → JS → Bool
  | .undefined, .undefined => true
  | .null, .null => true
  | .bool a, .bool b => decide (a = b)
  | .num .nan, .num _ => false
  | .num a, .num b => decide (a = b)
  | .str a, .str b => decide (a = b)
  | _, _ => false

/-- The value stored under key `k` in a property list. -/
def lookup (k : String) : List (String × JS) → Option JS
  | [] => none
  | (k', v) :: r => if k' = k then some v else lookup k r

/-- The property list after `o[k] = v`: the value is replaced in place when the key
exists and the key is added at the end otherwise. -/
def setField (k : String) (v : JS) : List (String × JS) → List (String × JS)
  | [] => [(k, v)]
  | (k', v') :: r => if k' = k then (k, v) :: r else (k', v') :: setField k v r

/-- The read `v.k` for the property names the handlers use, none of which is an array
index: it throws on `null` and `undefined`, and finds only `length` on arrays and
strings. -/
def getProp (v : JS) (k : String) : Except Thrown JS :=
  match v with
  | .undefined => .error .typeError
  | .null => .error .typeError
  | .obj kvs => .ok ((lookup k kvs).getD .undefined)
  | .arr xs => .ok (if k = "length" then JS.int xs.length else .undefined)
  | .str s => .ok (if k = "length" then JS.int s.length else .undefined)
  | _ => .ok .undefined

/-- The read `v?.k`. -/
def optProp (v : JS) (k : String) : JS :=
  match getProp v k with
  | .ok x => x
  | .error _ => .undefined

/-- The assignment `o.k = v` on an object held in a document. Objects get the
property; on an array the extra property is not part of its JSON text. -/
def JS.set (o : JS) (k : String) (v : JS) : JS :=
  match o with
  | .obj kvs => .obj (setField k v kvs)
  | other => other

mutual
/-- Whether `ToPrimitive` succeeds on the value. A parsed object with an own `toString`
property (which is data, so not callable, and shadows `Object.prototype.toString`) has
no primitive value and the conversion throws a `TypeError`; every other parsed object
yields `"[object Object]"`. An array is joined by `Array.prototype.join`, which
converts each of its elements other than `null` and `undefined` to a string. -/
def convertible : JS → Bool
  | .obj kvs => (lookup "toString" kvs).isNone
  | .arr xs => allConvertible xs
  | _ => true
/-- Whether `ToPrimitive` succeeds on every value of the list. -/
def allConvertible : List JS → Bool
  | [] => true
  | x :: xs => convertible x && allConvertible xs
end

mutual
/-- The number that `Number(v)` returns when the conversion does not throw. -/
def numericValue (H : Host) : JS → JNum
  | .undefined => .nan
  | .null => .fin 0
  | .bool b => if b then .fin 1 else .fin 0
  | .num n => n
  | .str s => H.stringToNumber s
  | .arr xs => numericValueOfElems H xs
  | .obj _ => .nan
/-- The number denoted by the text `xs.join(",")`. -/
def numericValueOfElems (H : Host) : List JS → JNum
  | [] => .fin 0
  | [x] =>
    match x with
    | .undefined => .fin 0
    | .null => .fin 0
    | .bool _ => .nan
    | other => numericValue H other
  | _ :: _ :: _ => .nan
end

/-- The conversion `Number(v)`: a `TypeError` when the value has no primitive value,
and its numeric value otherwise. -/
def toNumber (H : Host) (v : JS) : Except Thrown JNum :=
  if convertible v then .ok (numericValue H v) else .error .typeError

/-- The test `typeof v === "number"`. -/
def isNumber : JS → Bool
  | .num _ => true
  | _ => false

/-- The call `v.slice(0, n)`: defined on strings and arrays, a `TypeError` elsewhere. -/
def sliceTo (n : Nat) (v : JS) : Except Thrown JS :=
  match v with
  | .str s => .ok (.str (String.mk (s.data.take n)))
  | .arr xs => .ok (.arr (xs.take n))
  | _ => .error .typeError

/-- The property list of `{...v}`. -/
def spread : JS → List (String × JS)
  | .obj kvs => kvs
  | .arr xs => xs.enum.map (fun p => (toString p.1, p.2))
  | .str s => s.data.enum.map (fun p => (toString p.1, JS.str (String.singleton p.2)))
  | _ => []

mutual
/-- The JSON value that the text `JSON.stringify(v)` denotes. -/
def stringify : JS → JS
  | .undefined => .null
  | .null => .null
  | .bool b => .bool b
  | .num (.fin q) => .num (.fin q)
  | .num _ => .null
  | .str s => .str s
  | .arr xs => .arr (stringifyElems xs)
  | .obj kvs => .obj (stringifyFields kvs)
/-- The elements of a serialised array. -/
def stringifyElems : List JS → List JS
  | [] => []
  | x :: xs => stringify x :: stringifyElems xs
/-- The properties of a serialised object: those holding `undefined` are left out. -/
def stringifyFields : List (String × JS) → List (String × JS)
  | [] => []
  | (k, v) :: r =>
    match v with
    | .undefined => stringifyFields r
    | other => (k, stringify other) :: stringifyFields r
end

/-- The search `xs.findIndex(p)` for a callback that may throw: `none` stands for `-1`. -/
def findIndexM (p : JS → Except Thrown Bool) : List JS → Except Thrown (Option Nat)
  | [] => .ok none
  | x :: xs =>
    match p x with
    | .error e => .error e
    | .ok true => .ok (some 0)
    | .ok false =>
      match findIndexM p xs with
      | .error e => .error e
      | .ok none => .ok none
      | .ok (some i) => .ok (some (i + 1))

/-- The loop `xs.map(f)` (or `forEach` over mutated elements) for a callback that may throw. -/
def mapM (f : JS → Except Thrown JS) : List JS → Except Thrown (List JS)
  | [] => .ok []
  | x :: xs =>
    match f x with
    | .error e => .error e
    | .ok y =>
      match mapM f xs with
      | .error e => .error e
      | .ok ys => .ok (y :: ys)

/-- The array held by `v`, on which an array method is called: a `TypeError` when
`v` is not an array. -/
def asArray : JS → Except Thrown (List JS)
  | .arr xs => .ok xs
  | _ => .error .typeError

/-! ## Save: the merge step (`save/route.js`, lines 104–153) -/

/-- The literal `{ events: [] }`. -/
def emptyStore : JS := .obj [("events", .arr [])]

/-- The event object created for an unknown handle (lines 107–113). -/
def newEvent (event_handle event_name : JS) (now : String) : JS :=
  .obj [("id", event_handle),
        ("name", jsOr event_name event_handle),
        ("date", .str (String.mk (now.data.take 10))),
        ("collection_handle", event_handle),
        ("wines", .arr [])]

/-- The callback `e => e.collection_handle === event_handle`. -/
def eventHasHandle (event_handle : JS) (e : JS) : Except Thrown Bool :=
  match getProp e "collection_handle" with
  | .error err => .error err
  | .ok h => .ok (strictEq h event_handle)

/-- The callback `w => w.product_id === pid`. -/
def wineHasPid (pid : JNum) (w : JS) : Except Thrown Bool :=
  match getProp w "product_id" with
  | .error err => .error err
  | .ok p => .ok (strictEq p (.num pid))

/-- The object `entryNew` (lines 122–132). -/
def entryNew (pid : JNum) (product : JS) (now : String) : Except Thrown JS :=
  match sliceTo 2000 (jsOr (optProp product "nose") (.str "")),
        sliceTo 2000 (jsOr (optProp product "palate") (.str "")),
        sliceTo 2000 (jsOr (optProp product "note") (.str "")) with
  | .ok nose, .ok palate, .ok note =>
    .ok (.obj [("product_id", .num pid),
               ("handle", jsOr (optProp product "handle") (.str "")),
               ("title", jsOr (optProp product "title") (.str "")),
               ("rating", if isNumber (optProp product "rating") then optProp product "rating" else .null),
               ("nose", nose),
               ("palate", palate),
               ("note", note),
               ("created_at", .str now),
               ("updated_at", .str now)])
  | _, _, _ => .error .typeError

/-- The object written over an existing entry (lines 137–147). -/
def entryUpdate (existing product : JS) (now : String) : Except Thrown JS :=
  match sliceTo 2000 (jsCoalesce (optProp product "nose") (jsCoalesce (optProp existing "nose") (.str ""))),
        sliceTo 2000 (jsCoalesce (optProp product "palate") (jsCoalesce (optProp existing "palate") (.str ""))),
        sliceTo 2000 (jsCoalesce (optProp product "note") (jsCoalesce (optProp existing "note") (.str ""))) with
  | .ok nose, .ok palate, .ok note =>
    .ok (.obj
      (setField "updated_at" (.str now)
      (setField "created_at"
          (jsOr (optProp existing "created_at") (jsOr (optProp existing "updated_at") (.str now)))
      (setField "note" note
      (setField "palate" palate
      (setField "nose" nose
      (setField "rating"
          (if isNumber (optProp product "rating") then optProp product "rating"
           else jsCoalesce (optProp existing "rating") .null)
      (setField "title"
          (jsOr (optProp product "title") (jsOr (optProp existing "title") (.str "")))
      (setField "handle"
          (jsOr (optProp product "handle") (jsOr (optProp existing "handle") (.str "")))
      (spread existing))))))))))
  | _, _, _ => .error .typeError

/-- The body of the back-fill loop (line 152) on one entry. The module is strict
code, so the assignment throws on a primitive. -/
def backfill (now : String) (w : JS) : Except Thrown JS :=
  match getProp w "created_at" with
  | .error err => .error err
  | .ok c =>
    if truthy c then .ok w
    else
      match w with
      | .obj kvs => .ok (.obj (setField "created_at" (jsOr (optProp w "updated_at") (.str now)) kvs))
      | .arr xs => .ok (.arr xs)
      | _ => .error .typeError

/-- Lines 117–153 on the `wines` array of the event: upsert keyed on `product_id`,
then the back-fill loop. -/
def upsertWine (H : Host) (wines : List JS) (product : JS) (now : String) :
    Except Thrown (List JS) :=
  match getProp product "product_id" with
  | .error err => .error err
  | .ok rawPid =>
    match toNumber H rawPid with
    | .error err => .error err
    | .ok pid =>
      match findIndexM (wineHasPid pid) wines with
      | .error err => .error err
      | .ok none =>
        match entryNew pid product now with
        | .error err => .error err
        | .ok e => mapM (backfill now) (wines ++ [e])
      | .ok (some idx) =>
        match entryUpdate (wines.getD idx .undefined) product now with
        | .error err => .error err
        | .ok e => mapM (backfill now) (wines.set idx e)

/-- Lines 117–153 and the store that results, for the event `evt` placed at index `i`
of `events`. -/
def mergeInto (H : Host) (store : JS) (events : List JS) (i : Nat) (evt product : JS)
    (now : String) : Except Thrown JS :=
  match getProp evt "wines" with
  | .error err => .error err
  | .ok ws =>
    match asArray ws with
    | .error err => .error err
    | .ok wines =>
      match upsertWine H wines product now with
      | .error err => .error err
      | .ok wines2 =>
        .ok (store.set "events" (.arr (events.set i (evt.set "wines" (.arr wines2)))))

/-- Lines 104–153: the store after the note has been merged into it. -/
def mergeNote (H : Host) (store event_handle event_name product : JS) (now : String) :
    Except Thrown JS :=
  match getProp store "events" with
  | .error err => .error err
  | .ok evs =>
    match asArray evs with
    | .error err => .error err
    | .ok events =>
      match findIndexM (eventHasHandle event_handle) events with
      | .error err => .error err
      | .ok found =>
        let evt := match found with
          | some i => events.getD i .undefined
          | none => .undefined
        if truthy evt then
          mergeInto H store events (found.getD 0) evt product now
        else
          mergeInto H store (events ++ [newEvent event_handle event_name now]) events.length
            (newEvent event_handle event_name now) product now

/-- The JSON document `JSON.stringify(store)` handed to the write (line 170). -/
def saveDocument (H : Host) (store event_handle event_name product : JS) (now : String) :
    Except Thrown JS :=
  match mergeNote H store event_handle event_name product now with
  | .error err => .error err
  | .ok merged => .ok (stringify merged)

/-! ## Save: the handler (`save/route.js`, `POST`) -/

/-- The constant `ALLOWED_ORIGINS`. -/
def allowedOrigins : List String :=
  ["https://famelia-wine.myshopify.com", "https://famelia.com.au", "https://www.famelia.com.au"]

/-- The upstream GraphQL endpoint as `shopifyGraphQL` sees it: for each query and its
variables, the `data` returned or the exception thrown. -/
structure SaveUpstream where
  /-- The query `customer(id) { id email }`. -/
  customerQuery : JS → Except Thrown JS
  /-- The query `customer(id) { metafield(namespace:"tasting", key:"events") }`. -/
  metafieldQuery : JS → Except Thrown JS
  /-- The mutation `metafieldsSet`, for the owner and the JSON document written. -/
  metafieldsSet : JS → JS → Except Thrown JS

/-- An upstream call issued by the Save handler. -/
inductive SaveCall
  | customerQuery (customer_id : JS)
  | metafieldQuery (customer_id : JS)
  | metafieldsSet (customer_id : JS) (value : JS)

/-- The responses of the Save handler, one constructor for each `return`. -/
inductive SaveReply
  | originNotAllowed
  | invalidJson
  | missingFields
  | verificationFailed
  | userErrors (messages : List JS)
  | serverError (e : Thrown)
  | ok

/-- The HTTP status of a Save response. -/
def SaveReply.status : SaveReply → Nat
  | .originNotAllowed => 401
  | .invalidJson => 400
  | .missingFields => 400
  | .verificationFailed => 401
  | .userErrors _ => 500
  | .serverError _ => 500
  | .ok => 200

/-- The `ok` flag of a Save response body. -/
def SaveReply.okFlag : SaveReply → Bool
  | .ok => true
  | _ => false

/-- The fields destructured from the request body (line 73). -/
structure SaveFields where
  shop : JS
  customer_id : JS
  customer_email : JS
  event_handle : JS
  event_name : JS
  product : JS

/-- Line 73: `const { ... } = body || {}`. -/
def saveFields (body : JS) : SaveFields :=
  let b := jsOr body (.obj [])
  { shop := optProp b "shop",
    customer_id := optProp b "customer_id",
    customer_email := optProp b "customer_email",
    event_handle := optProp b "event_handle",
    event_name := optProp b "event_name",
    product := optProp b "product" }

/-- Line 74: the validation that accepts a request. -/
def accepted (f : SaveFields) : Bool :=
  truthy f.shop && truthy f.customer_id && truthy f.customer_email && truthy f.event_handle
    && truthy (optProp f.product "product_id")

/-- Lines 83–86: `some true` when the customer is verified, `some false` when not,
`none` when the comparison throws (a truthy `email` that is not a string). -/
def verified (H : Host) (d1 customer_email : JS) : Option Bool :=
  let realEmail := optProp (optProp d1 "customer") "email"
  if truthy realEmail then
    match realEmail with
    | .str s => some (decide (H.toLowerCase s = H.toLowerCase (H.toStr customer_email)))
    | _ => none
  else some false

/-- Lines 97–101: the store read from the metafield, `{ events: [] }` when the
metafield is missing, its value empty or its value unparseable. -/
def readStore (H : Host) (d2 : JS) : JS :=
  let value := optProp (optProp (optProp d2 "customer") "metafield") "value"
  if truthy value then
    match value with
    | .str s => (H.jsonParse s).getD emptyStore
    | other => (H.jsonParse (H.toStr other)).getD emptyStore
  else emptyStore

/-- Lines 170–176: the write and the response that follows it. -/
def saveWrite (up : SaveUpstream) (customer_id doc : JS) : SaveReply :=
  match up.metafieldsSet customer_id doc with
  | .error e => .serverError e
  | .ok d3 =>
    let errs := jsOr (optProp (optProp d3 "metafieldsSet") "userErrors") (.arr [])
    if truthy (optProp errs "length") then
      match asArray errs with
      | .error e => .serverError e
      | .ok es =>
        match mapM (fun e => getProp e "message") es with
        | .error e => .serverError e
        | .ok msgs => .userErrors msgs
    else .ok

/-- The outcome of lines 61–101: an early response, or the validated fields and the
store read from the metafield. -/
inductive SaveLoaded
  | reply (r : SaveReply) (calls : List SaveCall)
  | store (f : SaveFields) (store : JS)

/-- Lines 61–101: origin check, body parsing, validation, customer verification and
the read of the stored document. -/
def saveLoad (H : Host) (up : SaveUpstream) (origin : String) (body : Option JS) :
    SaveLoaded :=
  if origin ∈ allowedOrigins then
    match body with
    | none => .reply .invalidJson []
    | some b =>
      let f := saveFields b
      if accepted f then
        match up.customerQuery f.customer_id with
        | .error e => .reply (.serverError e) [.customerQuery f.customer_id]
        | .ok d1 =>
          match verified H d1 f.customer_email with
          | none => .reply (.serverError .typeError) [.customerQuery f.customer_id]
          | some false => .reply .verificationFailed [.customerQuery f.customer_id]
          | some true =>
            match up.metafieldQuery f.customer_id with
            | .error e =>
              .reply (.serverError e)
                [.customerQuery f.customer_id, .metafieldQuery f.customer_id]
            | .ok d2 => .store f (readStore H d2)
      else .reply .missingFields []
  else .reply .originNotAllowed []

/-- The handler `POST` of `save/route.js`: the response and the upstream calls issued,
in order. `origin` is the request header (empty when absent), `body` the parsed
request body (`none` when `request.json()` throws), `now` the text of
`new Date().toISOString()`. -/
def savePOST (H : Host) (up : SaveUpstream) (origin : String) (body : Option JS)
    (now : String) : SaveReply × List SaveCall :=
  match saveLoad H up origin body with
  | .reply r calls => (r, calls)
  | .store f store =>
    match saveDocument H store f.event_handle f.event_name f.product now with
    | .error e =>
      (.serverError e, [.customerQuery f.customer_id, .metafieldQuery f.customer_id])
    | .ok doc =>
      (saveWrite up f.customer_id doc,
        [.customerQuery f.customer_id, .metafieldQuery f.customer_id,
         .metafieldsSet f.customer_id doc])

/-! ## Delete: the handler (`delete/route.js`, `POST`) -/

/-- The process environment read by the Delete handler. -/
structure DeleteEnv where
  /-- The variable `SHOPIFY_ADMIN_API_ACCESS_TOKEN`. -/
  adminToken : Option String
  /-- The variable `SHOPIFY_STORE_DOMAIN`. -/
  storeDomain : Option String

/-- What `fetch` resolves to: the `ok` flag, the body as text and the body as JSON. -/
structure FetchResponse where
  ok : Bool
  text : String
  json : Except Thrown JS

/-- The upstream REST endpoint as `fetch` sees it: for each request, the response or
the exception thrown. -/
structure DeleteUpstream where
  /-- The request `GET customers/{customer_id}/metafields.json` on a store domain. -/
  getMetafields : JS → JS → Except Thrown FetchResponse
  /-- The request `PUT metafields/{id}.json` on a store domain, with the JSON document written. -/
  putMetafield : JS → JS → JS → Except Thrown FetchResponse

/-- An upstream call issued by the Delete handler. -/
inductive DeleteCall
  | getMetafields (domain customer_id : JS)
  | putMetafield (domain id value : JS)

/-- The responses of the Delete handler, one constructor for each `return`. -/
inductive DeleteReply
  | missingShopOrCustomer
  | missingEnv
  | fetchFailed (detail : String)
  | empty
  | notFoundEvent
  | updateFailed (detail : String)
  | removed (count : Nat)
  | serverError (e : Thrown)

/-- The HTTP status of a Delete response. -/
def DeleteReply.status : DeleteReply → Nat
  | .missingShopOrCustomer => 400
  | .missingEnv => 500
  | .fetchFailed _ => 502
  | .empty => 200
  | .notFoundEvent => 200
  | .updateFailed _ => 502
  | .removed _ => 200
  | .serverError _ => 500

/-- The JSON body of a Delete response that carries `ok: true`. -/
def DeleteReply.body : DeleteReply → Option JS
  | .empty => some (.obj [("ok", .bool true), ("empty", .bool true)])
  | .notFoundEvent => some (.obj [("ok", .bool true), ("notFound", .str "event")])
  | .removed n => some (.obj [("ok", .bool true), ("removed", JS.int n)])
  | _ => none

/-- A value of `process.env`. -/
def envValue : Option String → JS
  | none => .undefined
  | some s => .str s

/-- The destructuring default `product = {}`. -/
def productOrDefault : JS → JS
  | .undefined => .obj []
  | other => other

/-- The read `v[0]` on a truthy value. -/
def first : JS → JS
  | .arr (x :: _) => x
  | .str s =>
    match s.data with
    | c :: _ => .str (String.singleton c)
    | [] => .undefined
  | .obj kvs => (lookup "0" kvs).getD .undefined
  | _ => .undefined

/-- The test `Array.isArray(v)`. -/
def isArray : JS → Bool
  | .arr _ => true
  | _ => false

/-- Lines 67–76: the document held by the metafield, `{ events: [] }` when its value
is unparseable or has no `events` array. -/
def deleteValue (H : Host) (metafield : JS) : JS :=
  let value :=
    match optProp metafield "value" with
    | .str s => (H.jsonParse s).getD emptyStore
    | other => other
  if truthy value && isArray (optProp value "events") then value else emptyStore

/-- The callback of line 79, locating the event by handle, or by name when no handle
is supplied. -/
def eventMatches (event_handle event_name : JS) (e : JS) : Except Thrown Bool :=
  if truthy event_handle then
    match getProp e "handle" with
    | .error err => .error err
    | .ok h => .ok (strictEq h event_handle)
  else if truthy event_name then
    match getProp e "name" with
    | .error err => .error err
    | .ok n => .ok (strictEq n event_name)
  else .ok false

/-- The key `Number(v || 0) || null` of lines 92 and 97. -/
def pidKey (H : Host) (v : JS) : Except Thrown JS :=
  match toNumber H (jsOr v (JS.int 0)) with
  | .error err => .error err
  | .ok n => .ok (jsOr (.num n) .null)

/-- The key `v || null` of lines 93 and 98. -/
def handleKey (v : JS) : JS := jsOr v .null

/-- The truth value of `matchByPid || matchByHandle` (lines 97–101). -/
def wineMatches (H : Host) (pid handle : JS) (w : JS) : Except Thrown Bool :=
  match getProp w "product_id" with
  | .error err => .error err
  | .ok wp =>
    match pidKey H wp with
    | .error err => .error err
    | .ok wPid =>
      let wHandle := handleKey (optProp w "handle")
      .ok ((truthy pid && truthy wPid && strictEq wPid pid)
        || (truthy handle && truthy wHandle && strictEq wHandle handle))

/-- The call `wines.filter(w => !(matchByPid || matchByHandle))`. -/
def dropMatching (H : Host) (pid handle : JS) : List JS → Except Thrown (List JS)
  | [] => .ok []
  | w :: ws =>
    match wineMatches H pid handle w with
    | .error err => .error err
    | .ok m =>
      match dropMatching H pid handle ws with
      | .error err => .error err
      | .ok rest => .ok (if m then rest else w :: rest)

/-- The `events` array of a document (empty when there is none). -/
def eventsOf (doc : JS) : List JS :=
  match optProp doc "events" with
  | .arr es => es
  | _ => []

/-- The `wines` array of an event (empty when there is none). -/
def winesOf (ev : JS) : List JS :=
  match optProp ev "wines" with
  | .arr ws => ws
  | _ => []

/-- The outcome of lines 78–103. -/
inductive Removal
  | notFound
  | done (value : JS) (removed : Nat)

/-- Lines 78–103: locate the event and filter its wines. `value` holds an `events`
array (line 76). -/
def removeWine (H : Host) (value event_handle event_name product : JS) :
    Except Thrown Removal :=
  match findIndexM (eventMatches event_handle event_name) (eventsOf value) with
  | .error err => .error err
  | .ok none => .ok .notFound
  | .ok (some i) =>
    let ev := (eventsOf value).getD i .undefined
    match getProp ev "wines" with
    | .error err => .error err
    | .ok _ =>
      match getProp product "product_id" with
      | .error err => .error err
      | .ok rawPid =>
        match pidKey H rawPid with
        | .error err => .error err
        | .ok pid =>
          match dropMatching H pid (handleKey (optProp product "handle")) (winesOf ev) with
          | .error err => .error err
          | .ok kept =>
            .ok (.done
              (value.set "events" (.arr ((eventsOf value).set i (ev.set "wines" (.arr kept)))))
              ((winesOf ev).length - kept.length))

/-- The fields destructured from the request body (lines 18–25). -/
structure DeleteFields where
  shop : JS
  customer_id : JS
  event_handle : JS
  event_name : JS
  product : JS

/-- Lines 18–25: `const { ..., product = {} } = body || {}`. -/
def deleteFields (body : JS) : DeleteFields :=
  let b := jsOr body (.obj [])
  { shop := optProp b "shop",
    customer_id := optProp b "customer_id",
    event_handle := optProp b "event_handle",
    event_name := optProp b "event_name",
    product := productOrDefault (optProp b "product") }

/-- The outcome of lines 16–64: an early response, or the fields, the store domain
and the metafield read. -/
inductive DeleteLoaded
  | reply (r : DeleteReply) (calls : List DeleteCall)
  | metafield (f : DeleteFields) (domain : JS) (metafield : JS)

/-- Lines 16–64: body parsing, validation, environment check and the read of the
metafield. -/
def deleteLoad (env : DeleteEnv) (up : DeleteUpstream) (body : Option JS) : DeleteLoaded :=
  match body with
  | none => .reply (.serverError .syntaxError) []
  | some b =>
    let f := deleteFields b
    if truthy f.shop && truthy f.customer_id then
      let domain := jsOr (envValue env.storeDomain) f.shop
      if truthy (envValue env.adminToken) && truthy domain then
        match up.getMetafields domain f.customer_id with
        | .error e => .reply (.serverError e) [.getMetafields domain f.customer_id]
        | .ok resp =>
          if resp.ok then
            match resp.json with
            | .error e => .reply (.serverError e) [.getMetafields domain f.customer_id]
            | .ok metaList =>
              match getProp metaList "metafields" with
              | .error e => .reply (.serverError e) [.getMetafields domain f.customer_id]
              | .ok mfs =>
                let metafield := jsOr (if truthy mfs then first mfs else mfs) .null
                if truthy metafield then .metafield f domain metafield
                else .reply .empty [.getMetafields domain f.customer_id]
          else .reply (.fetchFailed resp.text) [.getMetafields domain f.customer_id]
      else .reply .missingEnv []
    else .reply .missingShopOrCustomer []

/-- The handler `POST` of `delete/route.js`: the response and the upstream calls
issued, in order. `body` is the parsed request body (`none` when `req.json()` throws). -/
def deletePOST (H : Host) (env : DeleteEnv) (up : DeleteUpstream) (body : Option JS) :
    DeleteReply × List DeleteCall :=
  match deleteLoad env up body with
  | .reply r calls => (r, calls)
  | .metafield f domain metafield =>
    match removeWine H (deleteValue H metafield) f.event_handle f.event_name f.product with
    | .error e => (.serverError e, [.getMetafields domain f.customer_id])
    | .ok .notFound => (.notFoundEvent, [.getMetafields domain f.customer_id])
    | .ok (.done value removed) =>
      match up.putMetafield domain (optProp metafield "id") (stringify value) with
      | .error e =>
        (.serverError e,
          [.getMetafields domain f.customer_id,
           .putMetafield domain (optProp metafield "id") (stringify value)])
      | .ok upd =>
        (if upd.ok then .removed removed else .updateFailed upd.text,
          [.getMetafields domain f.customer_id,
           .putMetafield domain (optProp metafield "id") (stringify value)])

/-! ## Vocabulary of the specification -/

mutual
/-- Whether the value is JSON data as `JSON.stringify` writes it: no `undefined`
inside and every number finite. -/
def isPlain : JS → Bool
  | .undefined => false
  | .null => true
  | .bool _ => true
  | .num (.fin _) => true
  | .num _ => false
  | .str _ => true
  | .arr xs => allPlain xs
  | .obj kvs => fieldsPlain kvs
/-- Whether every element is JSON data. -/
def allPlain : List JS → Bool
  | [] => true
  | x :: xs => isPlain x && allPlain xs
/-- Whether every property value is JSON data. -/
def fieldsPlain : List (String × JS) → Bool
  | [] => true
  | (_, v) :: r => isPlain v && fieldsPlain r
end

/-- Whether the value is an object. -/
def isObject : JS → Bool
  | .obj _ => true
  | _ => false

/-- The `product_id` values of the entries of an event, in order. -/
def productIds (ev : JS) : List JS :=
  (winesOf ev).map (fun w => optProp w "product_id")

/-- Within every event of the document, the `product_id` values are pairwise distinct. -/
def UniqueProductIds (doc : JS) : Prop :=
  ∀ e ∈ eventsOf doc, (productIds e).Nodup

/-- The number `Number(product.product_id)` that Save uses as key. -/
def requestPid (H : Host) (product : JS) : JNum :=
  numericValue H (optProp product "product_id")

/-- The position in `events` of the event Save works on: the first event whose
`collection_handle` is the requested handle, and the end of the array (where a new
event is pushed) when there is none. -/
def eventIndex (doc event_handle : JS) : Nat :=
  (eventsOf doc).findIdx (fun e => strictEq (optProp e "collection_handle") event_handle)

/-- The position in `wines` of the entry Save writes: the first entry whose
`product_id` is the requested key, and the end of the array (where a new entry is
pushed) when there is none. -/
def wineIndex (H : Host) (ev product : JS) : Nat :=
  (winesOf ev).findIdx (fun w => strictEq (optProp w "product_id") (.num (requestPid H product)))

/-- The event of the stored document that Save works on (`undefined` when it has to
be created). -/
def storedEvent (doc event_handle : JS) : JS :=
  (eventsOf doc).getD (eventIndex doc event_handle) .undefined

/-- The entry of the stored document that Save overwrites (`undefined` when it has to
be created). -/
def storedEntry (H : Host) (doc event_handle product : JS) : JS :=
  (winesOf (storedEvent doc event_handle)).getD
    (wineIndex H (storedEvent doc event_handle) product) .undefined

/-- The event of the written document at the position Save works on. -/
def writtenEvent (doc event_handle written : JS) : JS :=
  (eventsOf written).getD (eventIndex doc event_handle) .undefined

/-- The entry of the written document at the position Save writes. -/
def writtenEntry (H : Host) (doc event_handle product written : JS) : JS :=
  (winesOf (writtenEvent doc event_handle written)).getD
    (wineIndex H (storedEvent doc event_handle) product) .undefined

/-- Whether the value is a string or absent (`undefined` or `null`), as the data model
has the text fields. -/
def textOrAbsent : JS → Bool
  | .str _ => true
  | .undefined => true
  | .null => true
  | _ => false

/-- Whether the value has the shape of a `TastingEntry`: an object whose `nose`,
`palate` and `note` are strings or absent. -/
def entryShaped (w : JS) : Bool :=
  isObject w && textOrAbsent (optProp w "nose") && textOrAbsent (optProp w "palate")
    && textOrAbsent (optProp w "note")

/-- Whether the value has the shape of an `Event`: an object whose `wines` is an array
of entries. -/
def eventShaped (e : JS) : Bool :=
  isObject e &&
    (match optProp e "wines" with
     | .arr ws => ws.all entryShaped
     | _ => false)

/-- Whether the value has the shape of a `Document`: its `events` is an array of
events. -/
def documentShaped (doc : JS) : Bool :=
  match optProp doc "events" with
  | .arr es => es.all eventShaped
  | _ => false

/-- Whether the `product` of a Save request has the shape the interface gives it: an
object whose `nose`, `palate` and `note` are strings or absent, and whose `product_id`
has a primitive value, so that `Number(product.product_id)` returns. -/
def productShaped (product : JS) : Bool :=
  entryShaped product && convertible (optProp product "product_id")

/-- The number a Delete request supplies as product key: `Number(product_id || 0)`,
which is `0` when the request supplies none. -/
def deletePid (H : Host) (product : JS) : JNum :=
  numericValue H (jsOr (optProp product "product_id") (JS.int 0))

/-- Whether an entry matches the product of a Delete request: its `product_id` is the
(non-zero) number supplied, or its `handle` is the (non-empty) handle supplied. -/
def entryMatches (H : Host) (product w : JS) : Bool :=
  (truthy (.num (deletePid H product))
      && strictEq (optProp w "product_id") (.num (deletePid H product)))
    || (truthy (optProp product "handle")
      && strictEq (optProp w "handle") (optProp product "handle"))

/-- Whether Delete locates the event: by `handle` when the request supplies an event
handle, by `name` when it supplies only an event name. -/
def eventLocated (event_handle event_name e : JS) : Bool :=
  if truthy event_handle then strictEq (optProp e "handle") event_handle
  else truthy event_name && strictEq (optProp e "name") event_name

/-- Whether the value is a number, `null` or `undefined`. -/
def numberOrNullish (v : JS) : Bool := isNumber v || nullish v

/-- The stored document with the matching entries of the located event `ev` dropped:
`events` is `pre`, then `ev`, then `post`. -/
def withoutMatching (H : Host) (stored : JS) (pre : List JS) (ev : JS) (post : List JS)
    (product : JS) : JS :=
  stored.set "events"
    (.arr (pre ++ ev.set "wines"
      (.arr ((winesOf ev).filter (fun w => !entryMatches H product w))) :: post))

/-! ## Sample data for concrete runs -/

/-- A time of writing. -/
def sampleNow : String := "2024-06-01T09:30:00.000Z"

/-- An entry as Save stores it. -/
def sampleEntry : JS :=
  .obj [("product_id", JS.int 42), ("handle", .str "merlot-2019"), ("title", .str "Merlot 2019"),
        ("rating", JS.int 4), ("nose", .str "citrus"), ("palate", .str ""), ("note", .str ""),
        ("created_at", .str "2024-05-01T10:00:00.000Z"),
        ("updated_at", .str "2024-05-01T10:00:00.000Z")]

/-- A stored document with one event holding `sampleEntry`. -/
def sampleStore : JS :=
  .obj [("events", .arr [.obj [("id", .str "spring-tasting"), ("name", .str "Spring tasting"),
          ("date", .str "2024-05-01"), ("collection_handle", .str "spring-tasting"),
          ("wines", .arr [sampleEntry])]])]

/-- A request product that rates product 42 again. -/
def sampleRating : JS := .obj [("product_id", JS.int 42), ("rating", JS.int 5)]

/-- The document written when `sampleRating` is saved into `sampleStore` at `sampleNow`. -/
def sampleRated : JS :=
  .obj [("events", .arr [.obj [("id", .str "spring-tasting"), ("name", .str "Spring tasting"),
          ("date", .str "2024-05-01"), ("collection_handle", .str "spring-tasting"),
          ("wines", .arr [
            .obj [("product_id", JS.int 42), ("handle", .str "merlot-2019"),
                  ("title", .str "Merlot 2019"), ("rating", JS.int 5), ("nose", .str "citrus"),
                  ("palate", .str ""), ("note", .str ""),
                  ("created_at", .str "2024-05-01T10:00:00.000Z"),
                  ("updated_at", .str "2024-06-01T09:30:00.000Z")]])]])]

/-- A text of 2001 characters. -/
def longText : String := String.mk (List.replicate 2001 'a')

/-- A request product whose `nose` is too long. -/
def sampleLong : JS := .obj [("product_id", JS.int 7), ("nose", .str longText)]

/-- The document written when `sampleLong` is saved into the empty store at `sampleNow`. -/
def sampleLongSaved : JS :=
  .obj [("events", .arr [.obj [("id", .str "spring-tasting"), ("name", .str "spring-tasting"),
          ("date", .str "2024-06-01"), ("collection_handle", .str "spring-tasting"),
          ("wines", .arr [
            .obj [("product_id", JS.int 7), ("handle", .str ""), ("title", .str ""),
                  ("rating", .null), ("nose", .str (String.mk (longText.data.take 2000))),
                  ("palate", .str ""), ("note", .str ""),
                  ("created_at", .str "2024-06-01T09:30:00.000Z"),
                  ("updated_at", .str "2024-06-01T09:30:00.000Z")]])]])]

/-- A request product that sends an empty `title` and an empty `nose` for product 42. -/
def sampleBlank : JS := .obj [("product_id", JS.int 42), ("title", .str ""), ("nose", .str "")]

/-- The document written when `sampleBlank` is saved into `sampleStore` at `sampleNow`. -/
def sampleBlanked : JS :=
  .obj [("events", .arr [.obj [("id", .str "spring-tasting"), ("name", .str "Spring tasting"),
          ("date", .str "2024-05-01"), ("collection_handle", .str "spring-tasting"),
          ("wines", .arr [
            .obj [("product_id", JS.int 42), ("handle", .str "merlot-2019"),
                  ("title", .str "Merlot 2019"), ("rating", JS.int 4), ("nose", .str ""),
                  ("palate", .str ""), ("note", .str ""),
                  ("created_at", .str "2024-05-01T10:00:00.000Z"),
                  ("updated_at", .str "2024-06-01T09:30:00.000Z")]])]])]

/-- A request product for a first note on product 42. -/
def sampleFirst : JS :=
  .obj [("product_id", JS.int 42), ("rating", JS.int 4), ("nose", .str "citrus")]

/-- The entry written when `sampleFirst` is saved at `sampleNow`. -/
def sampleFirstEntry : JS :=
  .obj [("product_id", JS.int 42), ("handle", .str ""), ("title", .str ""),
        ("rating", JS.int 4), ("nose", .str "citrus"), ("palate", .str ""), ("note", .str ""),
        ("created_at", .str "2024-06-01T09:30:00.000Z"),
        ("updated_at", .str "2024-06-01T09:30:00.000Z")]

/-- The document written when `sampleFirst` is saved into the empty store at `sampleNow`. -/
def sampleFirstSaved : JS :=
  .obj [("events", .arr [.obj [("id", .str "spring-tasting"), ("name", .str "spring-tasting"),
          ("date", .str "2024-06-01"), ("collection_handle", .str "spring-tasting"),
          ("wines", .arr [sampleFirstEntry])]])]

/-- A request product whose `product_id` is a global id, not a number. -/
def sampleGid : JS := .obj [("product_id", .str "gid://shopify/Product/42"), ("rating", JS.int 4)]

/-- The entry written for `sampleGid` at `sampleNow`: the key `NaN` is written as `null`. -/
def sampleGidEntry : JS :=
  .obj [("product_id", .null), ("handle", .str ""), ("title", .str ""),
        ("rating", JS.int 4), ("nose", .str ""), ("palate", .str ""), ("note", .str ""),
        ("created_at", .str "2024-06-01T09:30:00.000Z"),
        ("updated_at", .str "2024-06-01T09:30:00.000Z")]

/-- The document written when `sampleGid` is saved into the empty store at `sampleNow`. -/
def sampleGidSaved : JS :=
  .obj [("events", .arr [.obj [("id", .str "spring-tasting"), ("name", .str "spring-tasting"),
          ("date", .str "2024-06-01"), ("collection_handle", .str "spring-tasting"),
          ("wines", .arr [sampleGidEntry])]])]

/-- The document written when `sampleGid` is saved once more, into `sampleGidSaved`. -/
def sampleGidTwice : JS :=
  .obj [("events", .arr [.obj [("id", .str "spring-tasting"), ("name", .str "spring-tasting"),
          ("date", .str "2024-06-01"), ("collection_handle", .str "spring-tasting"),
          ("wines", .arr [sampleGidEntry, sampleGidEntry])]])]

/-- The JSON text of `sampleStore`. -/
def sampleStoreText : String :=
  "\x7b\"events\":[\x7b\"id\":\"spring-tasting\",\"name\":\"Spring tasting\",\"date" ++
  "\":\"2024-05-01\",\"collection_handle\":\"spring-tasting\",\"wines\":[\x7b\"prod" ++
  "uct_id\":42,\"handle\":\"merlot-2019\",\"title\":\"Merlot 2019\",\"rating\":4,\"" ++
  "nose\":\"citrus\",\"palate\":\"\",\"note\":\"\",\"created_at\":\"2024-05-01T10:0" ++
  "0:00.000Z\",\"updated_at\":\"2024-05-01T10:00:00.000Z\"\x7d]\x7d]\x7d"

/-- The JSON text of `sampleFirstSaved`. -/
def sampleFirstText : String :=
  "\x7b\"events\":[\x7b\"id\":\"spring-tasting\",\"name\":\"spring-tasting\",\"date" ++
  "\":\"2024-06-01\",\"collection_handle\":\"spring-tasting\",\"wines\":[\x7b\"prod" ++
  "uct_id\":42,\"handle\":\"\",\"title\":\"\",\"rating\":4,\"nose\":\"citrus\",\"pa" ++
  "late\":\"\",\"note\":\"\",\"created_at\":\"2024-06-01T09:30:00.000Z\",\"updated_" ++
  "at\":\"2024-06-01T09:30:00.000Z\"\x7d]\x7d]\x7d"

/-! ## A host for concrete runs -/

/-- JSON texts used in the concrete runs of this file, each with the value it denotes. -/
def sampleTexts : List (String × JS) :=
  [("null", .null),
   ("\x7b\x7d", .obj []),
   ("7", JS.int 7),
   ("\x7b\"events\":\"none\"\x7d", .obj [("events", .str "none")]),
   (sampleStoreText, sampleStore),
   (sampleFirstText, sampleFirstSaved)]

/-- A host for concrete runs: it agrees with the runtime on strings of decimal digits
and on strings that hold a letter outside a numeric literal (`StringToNumber`), on
ASCII text (`toLowerCase`), on strings (`String(v)`) and on the texts of
`sampleTexts`, every other text being taken as unparseable. -/
def sampleHost : Host where
  stringToNumber s :=
    if s = "" then .fin 0
    else if s.data.all Char.isDigit then
      .fin (s.data.foldl (fun n c => 10 * n + (c.toNat - 48)) 0)
    else .nan
  toLowerCase s := String.mk (s.data.map Char.toLower)
  toStr v :=
    match v with
    | .str s => s
    | _ => ""
  jsonParse s := (sampleTexts.find? (fun p => p.1 = s)).map Prod.snd

/-- The environment of a configured deployment. -/
def sampleEnv : DeleteEnv :=
  { adminToken := some "shpat_sample", storeDomain := some "famelia-wine.myshopify.com" }

/-- The metafield record the store returns for a value. -/
def sampleMetafield (value : JS) : JS :=
  .obj [("id", JS.int 9001), ("namespace", .str "tasting"), ("key", .str "events"),
        ("value", value), ("type", .str "json")]

/-- A store whose metafield list is `metafields` and whose writes succeed. -/
def sampleDeleteUpstream (metafields : JS) : DeleteUpstream :=
  { getMetafields := fun _ _ =>
      .ok { ok := true, text := "", json := .ok (.obj [("metafields", metafields)]) },
    putMetafield := fun _ _ _ => .ok { ok := true, text := "", json := .ok (.obj []) } }

/-- A Delete request body for product 42 of the event "spring-tasting". -/
def sampleDeleteBody : JS :=
  .obj [("shop", .str "famelia-wine.myshopify.com"), ("customer_id", JS.int 7001),
        ("event_handle", .str "spring-tasting"),
        ("product", .obj [("product_id", JS.int 42)])]

/-- A Delete request body that names the event of `sampleStore` and product 42. -/
def sampleDeleteByName : JS :=
  .obj [("shop", .str "famelia-wine.myshopify.com"), ("customer_id", JS.int 7001),
        ("event_name", .str "Spring tasting"),
        ("product", .obj [("product_id", JS.int 42)])]

/-- A Delete request body that names the event of `sampleStore` and product 99, which
the event does not hold. -/
def sampleDeleteUnknown : JS :=
  .obj [("shop", .str "famelia-wine.myshopify.com"), ("customer_id", JS.int 7001),
        ("event_name", .str "Spring tasting"),
        ("product", .obj [("product_id", JS.int 99)])]

/-- A Delete request body that names the event of `sampleStore`, product 99, which the
event does not hold, and the handle of the entry the event holds. -/
def sampleDeleteByHandle : JS :=
  .obj [("shop", .str "famelia-wine.myshopify.com"), ("customer_id", JS.int 7001),
        ("event_name", .str "Spring tasting"),
        ("product", .obj [("product_id", JS.int 99), ("handle", .str "merlot-2019")])]

/-- A request product whose `product_id` is the object `\x7b"toString": 1\x7d`, which has
no primitive value. -/
def sampleOpaque : JS := .obj [("product_id", .obj [("toString", JS.int 1)])]

/-- A Delete request body that names the event of `sampleStore` and the product
`sampleOpaque`. -/
def sampleDeleteOpaque : JS :=
  .obj [("shop", .str "famelia-wine.myshopify.com"), ("customer_id", JS.int 7001),
        ("event_name", .str "Spring tasting"), ("product", sampleOpaque)]

/-- The event of `sampleStore`. -/
def sampleEvent : JS :=
  .obj [("id", .str "spring-tasting"), ("name", .str "Spring tasting"),
        ("date", .str "2024-05-01"), ("collection_handle", .str "spring-tasting"),
        ("wines", .arr [sampleEntry])]

/-- The document `sampleStore` with the wines of its event removed. -/
def sampleEmptied : JS :=
  .obj [("events", .arr [.obj [("id", .str "spring-tasting"), ("name", .str "Spring tasting"),
          ("date", .str "2024-05-01"), ("collection_handle", .str "spring-tasting"),
          ("wines", .arr [])]])]

/-- A GraphQL endpoint that knows the customer under the email "Ann@Example.com",
holds `value` as the value of the metafield and accepts every write. -/
def sampleSaveUpstream (value : JS) : SaveUpstream :=
  { customerQuery := fun id =>
      .ok (.obj [("customer", .obj [("id", id), ("email", .str "Ann@Example.com")])]),
    metafieldQuery := fun _ =>
      .ok (.obj [("customer", .obj [("metafield",
        .obj [("id", JS.int 9001), ("type", .str "json"), ("value", value)])])]),
    metafieldsSet := fun _ _ =>
      .ok (.obj [("metafieldsSet", .obj [("userErrors", .arr [])])]) }

/-- A Save request body for a first note on product 42. -/
def sampleSaveBody : JS :=
  .obj [("shop", .str "famelia-wine.myshopify.com"), ("customer_id", JS.int 7001),
        ("customer_email", .str "ann@example.com"), ("event_handle", .str "spring-tasting"),
        ("product", sampleFirst)]

/-! ## Property lists and property reads -/

theorem lookup_setField_same (k : String) (v : JS) (kvs : List (String × JS)) :
    lookup k (setField k v kvs) = some v := by
  induction kvs with
  | nil => simp [setField, lookup]
  | cons p r ih =>
    obtain ⟨k', v'⟩ := p
    by_cases h : k' = k <;> simp [setField, lookup, h, ih]

theorem lookup_setField_other {k k' : String} (h : k' ≠ k) (v : JS)
    (kvs : List (String × JS)) : lookup k' (setField k v kvs) = lookup k' kvs := by
  induction kvs with
  | nil => simp [setField, lookup, Ne.symm h]
  | cons p r ih =>
    obtain ⟨k2, v2⟩ := p
    by_cases h2 : k2 = k
    · subst h2
      simp [setField, lookup, Ne.symm h]
    · by_cases h3 : k2 = k'
      · subst h3
        simp [setField, lookup, h2]
      · simp [setField, lookup, h2, h3, ih]

theorem optProp_obj (kvs : List (String × JS)) (k : String) :
    optProp (.obj kvs) k = (lookup k kvs).getD .undefined := rfl

theorem optProp_set_same (kvs : List (String × JS)) (k : String) (v : JS) :
    optProp ((JS.obj kvs).set k v) k = v := by
  simp [JS.set, optProp_obj, lookup_setField_same]

theorem getProp_ok_optProp {v x : JS} {k : String} (h : getProp v k = .ok x) :
    optProp v k = x := by
  simp [optProp, h]

theorem getProp_of_not_nullish {v : JS} (k : String) (h : nullish v = false) :
    getProp v k = .ok (optProp v k) := by
  cases v <;> simp_all [nullish, getProp, optProp]

/-- A read that yields a truthy value other than `length` comes from an object. -/
theorem isObject_of_optProp_truthy {v : JS} {k : String} (hk : k ≠ "length")
    (h : truthy (optProp v k) = true) : isObject v = true := by
  cases v <;> simp_all [optProp, getProp, truthy, isObject]

theorem truthy_of_strictEq {a b : JS} (h : strictEq a b = true) (hb : truthy b = true) :
    truthy a = true := by
  cases a <;> cases b <;> simp_all [strictEq, truthy]
  all_goals rename_i x y; cases x <;> cases y <;> simp_all [strictEq, truthy]

/-! ## Searches and loops -/

/-- A successful `findIndex` returns the first index at which the callback holds. -/
theorem findIndexM_ok {p : JS → Except Thrown Bool} {q : JS → Bool}
    (hpq : ∀ x b, p x = .ok b → q x = b) :
    ∀ (xs : List JS) (r : Option Nat), findIndexM p xs = .ok r →
      r = (if xs.findIdx q < xs.length then some (xs.findIdx q) else none) := by
  intro xs
  induction xs with
  | nil => intro r h; simp [findIndexM] at h; simp [h]
  | cons x xs ih =>
    intro r h
    unfold findIndexM at h
    cases hp : p x with
    | error e => simp [hp] at h
    | ok b =>
      have hq := hpq x b hp
      cases b with
      | true => simp [hp] at h; simp [List.findIdx_cons, hq, ← h]
      | false =>
        simp only [hp] at h
        cases hr : findIndexM p xs with
        | error e => simp [hr] at h
        | ok r2 =>
          have h2 := ih r2 hr
          cases r2 with
          | none =>
            simp [hr] at h
            by_cases hlt : xs.findIdx q < xs.length
            · simp [hlt] at h2
            · simp [List.findIdx_cons, hq, hlt, ← h]
          | some i =>
            simp [hr] at h
            by_cases hlt : xs.findIdx q < xs.length
            · simp [hlt] at h2
              simp [List.findIdx_cons, hq, hlt, ← h, h2]
            · simp [hlt] at h2

/-- When the callback throws on no element, `findIndex` succeeds. -/
theorem findIndexM_total {p : JS → Except Thrown Bool} {q : JS → Bool} :
    ∀ (xs : List JS), (∀ x ∈ xs, p x = .ok (q x)) →
      findIndexM p xs
        = .ok (if xs.findIdx q < xs.length then some (xs.findIdx q) else none) := by
  intro xs
  induction xs with
  | nil => intro _; simp [findIndexM]
  | cons x xs ih =>
    intro hall
    have hx := hall x (by simp)
    have hxs := ih (fun y hy => hall y (by simp [hy]))
    unfold findIndexM
    cases hq : q x with
    | true => simp [hx, hq, List.findIdx_cons]
    | false =>
      simp only [hx, hq, hxs]
      by_cases hlt : xs.findIdx q < xs.length <;> simp [List.findIdx_cons, hq, hlt]

theorem mapM_ok_length {f : JS → Except Thrown JS} :
    ∀ (xs ys : List JS), mapM f xs = .ok ys → ys.length = xs.length := by
  intro xs
  induction xs with
  | nil => intro ys h; simp [mapM] at h; simp [← h]
  | cons x xs ih =>
    intro ys h
    unfold mapM at h
    cases hf : f x with
    | error e => simp [hf] at h
    | ok y =>
      cases hm : mapM f xs with
      | error e => simp [hf, hm] at h
      | ok ys2 =>
        simp [hf, hm] at h
        simp [← h, ih ys2 hm]

theorem mapM_ok_getD {f : JS → Except Thrown JS} :
    ∀ (xs ys : List JS), mapM f xs = .ok ys → ∀ i, i < xs.length →
      f (xs.getD i .undefined) = .ok (ys.getD i .undefined) := by
  intro xs
  induction xs with
  | nil => intro ys _ i hi; simp at hi
  | cons x xs ih =>
    intro ys h i hi
    unfold mapM at h
    cases hf : f x with
    | error e => simp [hf] at h
    | ok y =>
      cases hm : mapM f xs with
      | error e => simp [hf, hm] at h
      | ok ys2 =>
        simp [hf, hm] at h
        subst h
        cases i with
        | zero => simpa using hf
        | succ j =>
          have := ih ys2 hm j (by simpa using hi)
          simpa using this

theorem mapM_ok_mem {f : JS → Except Thrown JS} :
    ∀ (xs ys : List JS), mapM f xs = .ok ys → ∀ y ∈ ys, ∃ x ∈ xs, f x = .ok y := by
  intro xs
  induction xs with
  | nil => intro ys h y hy; simp [mapM] at h; subst h; cases hy
  | cons x xs ih =>
    intro ys h y hy
    unfold mapM at h
    cases hf : f x with
    | error e => simp [hf] at h
    | ok y0 =>
      cases hm : mapM f xs with
      | error e => simp [hf, hm] at h
      | ok ys2 =>
        simp [hf, hm] at h
        subst h
        rcases List.mem_cons.mp hy with rfl | hy2
        · exact ⟨x, by simp, hf⟩
        · obtain ⟨x2, hx2, hfx2⟩ := ih ys2 hm y hy2
          exact ⟨x2, by simp [hx2], hfx2⟩

/-- A loop whose body preserves a projection preserves the list of projections. -/
theorem mapM_ok_map {α : Type} {f : JS → Except Thrown JS} (g : JS → α)
    (hg : ∀ x y, f x = .ok y → g y = g x) :
    ∀ (xs ys : List JS), mapM f xs = .ok ys → ys.map g = xs.map g := by
  intro xs
  induction xs with
  | nil => intro ys h; simp [mapM] at h; simp [← h]
  | cons x xs ih =>
    intro ys h
    unfold mapM at h
    cases hf : f x with
    | error e => simp [hf] at h
    | ok y =>
      cases hm : mapM f xs with
      | error e => simp [hf, hm] at h
      | ok ys2 =>
        simp [hf, hm] at h
        subst h
        simp [hg x y hf, ih ys2 hm]

theorem mapM_total {f : JS → Except Thrown JS} :
    ∀ (xs : List JS), (∀ x ∈ xs, ∃ y, f x = .ok y) → ∃ ys, mapM f xs = .ok ys := by
  intro xs
  induction xs with
  | nil => intro _; exact ⟨[], by simp [mapM]⟩
  | cons x xs ih =>
    intro hall
    obtain ⟨y, hy⟩ := hall x (by simp)
    obtain ⟨ys, hys⟩ := ih (fun z hz => hall z (by simp [hz]))
    exact ⟨y :: ys, by simp [mapM, hy, hys]⟩

/-! ## Serialisation -/

mutual
/-- Serialising JSON data gives it back. -/
theorem stringify_plain : ∀ v : JS, isPlain v = true → stringify v = v
  | .undefined, h => by simp [isPlain] at h
  | .null, _ => by simp [stringify]
  | .bool _, _ => by simp [stringify]
  | .num (.fin _), _ => by simp [stringify]
  | .num .nan, h => by simp [isPlain] at h
  | .num .posInf, h => by simp [isPlain] at h
  | .num .negInf, h => by simp [isPlain] at h
  | .str _, _ => by simp [stringify]
  | .arr xs, h => by
    simp only [isPlain] at h
    simp [stringify, stringifyElems_plain xs h]
  | .obj kvs, h => by
    simp only [isPlain] at h
    simp [stringify, stringifyFields_plain kvs h]
theorem stringifyElems_plain :
    ∀ xs : List JS, allPlain xs = true → stringifyElems xs = xs
  | [], _ => by simp [stringifyElems]
  | x :: xs, h => by
    simp only [allPlain, Bool.and_eq_true] at h
    simp [stringifyElems, stringify_plain x h.1, stringifyElems_plain xs h.2]
theorem stringifyFields_plain :
    ∀ kvs : List (String × JS), fieldsPlain kvs = true → stringifyFields kvs = kvs
  | [], _ => by simp [stringifyFields]
  | (k, v) :: r, h => by
    simp only [fieldsPlain, Bool.and_eq_true] at h
    have hv := stringify_plain v h.1
    have hr := stringifyFields_plain r h.2
    cases v <;> simp_all [stringifyFields, isPlain]
end

theorem stringifyElems_eq_map (xs : List JS) : stringifyElems xs = xs.map stringify := by
  induction xs with
  | nil => simp [stringifyElems]
  | cons x xs ih => simp [stringifyElems, ih]

theorem allPlain_iff (xs : List JS) : allPlain xs = true ↔ ∀ x ∈ xs, isPlain x = true := by
  induction xs with
  | nil => simp [allPlain]
  | cons x xs ih => simp [allPlain, ih]

theorem fieldsPlain_lookup {kvs : List (String × JS)} (h : fieldsPlain kvs = true)
    {k : String} {v : JS} (hk : lookup k kvs = some v) : isPlain v = true := by
  induction kvs with
  | nil => simp [lookup] at hk
  | cons p r ih =>
    obtain ⟨k', v'⟩ := p
    simp only [fieldsPlain, Bool.and_eq_true] at h
    by_cases hkk : k' = k
    · simp [lookup, hkk] at hk
      subst hk
      exact h.1
    · simp [lookup, hkk] at hk
      exact ih h.2 hk

theorem fieldsPlain_setField {kvs : List (String × JS)} (h : fieldsPlain kvs = true)
    (k : String) {v : JS} (hv : isPlain v = true) : fieldsPlain (setField k v kvs) = true := by
  induction kvs with
  | nil => simp [setField, fieldsPlain, hv]
  | cons p r ih =>
    obtain ⟨k', v'⟩ := p
    simp only [fieldsPlain, Bool.and_eq_true] at h
    by_cases hkk : k' = k
    · simp [setField, hkk, fieldsPlain, hv, h.2]
    · simp [setField, hkk, fieldsPlain, h.1, ih h.2]

theorem isPlain_set {o : JS} (h : isPlain o = true) (k : String) {v : JS}
    (hv : isPlain v = true) : isPlain (o.set k v) = true := by
  cases o with
  | obj kvs =>
    simp only [isPlain] at h
    simp [JS.set, isPlain, fieldsPlain_setField h k hv]
  | _ => simpa [JS.set] using h

/-- A property read on JSON data yields JSON data or `undefined`. -/
theorem plain_optProp {v : JS} (h : isPlain v = true) (k : String) :
    optProp v k = .undefined ∨ isPlain (optProp v k) = true := by
  cases v with
  | obj kvs =>
    simp only [isPlain] at h
    cases hl : lookup k kvs with
    | none => left; simp [optProp_obj, hl]
    | some x => right; simp [optProp_obj, hl, fieldsPlain_lookup h hl]
  | arr xs => by_cases hk : k = "length" <;> simp [optProp, getProp, hk, JS.int, isPlain]
  | str s => by_cases hk : k = "length" <;> simp [optProp, getProp, hk, JS.int, isPlain]
  | _ => simp [optProp, getProp]

theorem lookup_stringifyFields {k : String} {v : JS} (hv : v ≠ .undefined) :
    ∀ kvs : List (String × JS), lookup k kvs = some v →
      lookup k (stringifyFields kvs) = some (stringify v) := by
  intro kvs
  induction kvs with
  | nil => intro h; simp [lookup] at h
  | cons p r ih =>
    intro h
    obtain ⟨k', v'⟩ := p
    by_cases hkk : k' = k
    · simp [lookup, hkk] at h
      subst h
      subst hkk
      cases v' <;> simp_all [stringifyFields, lookup]
    · simp [lookup, hkk] at h
      have := ih h
      cases v' <;> simp_all [stringifyFields, lookup]

/-- A property that holds a value keeps it, serialised, in the serialised object. -/
theorem optProp_stringify {v x : JS} {k : String} (hk : k ≠ "length")
    (h : optProp v k = x) (hx : x ≠ .undefined) :
    optProp (stringify v) k = stringify x := by
  cases v with
  | obj kvs =>
    cases hl : lookup k kvs with
    | none => simp [optProp_obj, hl] at h; exact absurd h.symm hx
    | some y =>
      simp [optProp_obj, hl] at h
      subst h
      simp [stringify, optProp_obj, lookup_stringifyFields hx kvs hl]
  | undefined => simp [optProp, getProp] at h; exact absurd h.symm hx
  | null => simp [optProp, getProp] at h; exact absurd h.symm hx
  | bool b => simp [optProp, getProp] at h; exact absurd h.symm hx
  | num n => simp [optProp, getProp] at h; exact absurd h.symm hx
  | str s => simp [optProp, getProp, hk] at h; exact absurd h.symm hx
  | arr xs => simp [optProp, getProp, hk] at h; exact absurd h.symm hx

theorem eventsOf_stringify {v : JS} {es : List JS} (h : optProp v "events" = .arr es) :
    eventsOf (stringify v) = es.map stringify := by
  have := optProp_stringify (by decide) h (by simp)
  simp [eventsOf, this, stringify, stringifyElems_eq_map]

theorem winesOf_stringify {v : JS} {ws : List JS} (h : optProp v "wines" = .arr ws) :
    winesOf (stringify v) = ws.map stringify := by
  have := optProp_stringify (by decide) h (by simp)
  simp [winesOf, this, stringify, stringifyElems_eq_map]

theorem getD_map_stringify (xs : List JS) (i : Nat) (h : i < xs.length) :
    (xs.map stringify).getD i .undefined = stringify (xs.getD i .undefined) := by
  simp [List.getD_eq_getElem?_getD, List.getElem?_map, List.getElem?_eq_getElem h]

/-! ## Save: what a successful merge did -/

theorem wineHasPid_ok {pid : JNum} {x : JS} {b : Bool} (h : wineHasPid pid x = .ok b) :
    strictEq (optProp x "product_id") (.num pid) = b := by
  unfold wineHasPid at h
  cases hg : getProp x "product_id" with
  | error e => simp [hg] at h
  | ok p => simp [hg] at h; simp [getProp_ok_optProp hg, h]

theorem eventHasHandle_ok {eh x : JS} {b : Bool} (h : eventHasHandle eh x = .ok b) :
    strictEq (optProp x "collection_handle") eh = b := by
  unfold eventHasHandle at h
  cases hg : getProp x "collection_handle" with
  | error e => simp [hg] at h
  | ok p => simp [hg] at h; simp [getProp_ok_optProp hg, h]

/-- A conversion `Number(v)` that returns: the value has a primitive value, and the
result is its numeric value. -/
theorem toNumber_ok {H : Host} {v : JS} {n : JNum} (h : toNumber H v = .ok n) :
    n = numericValue H v ∧ convertible v = true := by
  unfold toNumber at h
  by_cases hc : convertible v = true
  · simp only [hc, if_true, Except.ok.injEq] at h
    exact ⟨h.symm, hc⟩
  · simp [hc] at h

/-- The conversion `Number(v)` returns on a value that has a primitive value. -/
theorem toNumber_of_convertible (H : Host) {v : JS} (h : convertible v = true) :
    toNumber H v = .ok (numericValue H v) := by
  simp [toNumber, h]

/-- The entry Save writes into `wines`, before the back-fill loop: the overwritten
entry when the key is found and a new entry otherwise. -/
theorem upsertWine_ok {H : Host} {ws ws2 : List JS} {product : JS} {now : String}
    (h : upsertWine H ws product now = .ok ws2) :
    ∃ e,
      (if ws.findIdx (fun w => strictEq (optProp w "product_id") (.num (requestPid H product)))
            < ws.length
        then entryUpdate (ws.getD (ws.findIdx (fun w =>
            strictEq (optProp w "product_id") (.num (requestPid H product)))) .undefined) product now
        else entryNew (requestPid H product) product now) = .ok e
      ∧ mapM (backfill now)
          (if ws.findIdx (fun w => strictEq (optProp w "product_id") (.num (requestPid H product)))
              < ws.length
            then ws.set (ws.findIdx (fun w =>
              strictEq (optProp w "product_id") (.num (requestPid H product)))) e
            else ws ++ [e]) = .ok ws2 := by
  unfold upsertWine at h
  cases hg : getProp product "product_id" with
  | error e => simp [hg] at h
  | ok rawPid =>
    have hpid : requestPid H product = numericValue H rawPid := by
      simp [requestPid, getProp_ok_optProp hg]
    simp only [hg] at h
    cases hn : toNumber H rawPid with
    | error e => simp [hn] at h
    | ok pid =>
    obtain ⟨hnv, _⟩ := toNumber_ok hn
    subst hnv
    simp only [hn] at h
    cases hf : findIndexM (wineHasPid (numericValue H rawPid)) ws with
    | error e => simp [hf] at h
    | ok r =>
      have hr := findIndexM_ok (q := fun w => strictEq (optProp w "product_id")
        (.num (numericValue H rawPid))) (fun x b hx => wineHasPid_ok hx) ws r hf
      simp only [hf] at h
      rw [hpid]
      by_cases hlt : ws.findIdx (fun w => strictEq (optProp w "product_id")
          (.num (numericValue H rawPid))) < ws.length
      · simp only [hlt, if_true] at hr ⊢
        subst hr
        split at h
        · rename_i heq; simp at heq
        · rename_i heq; simp at heq
        · rename_i i heq
          simp only [Except.ok.injEq, Option.some.injEq] at heq
          subst heq
          split at h
          · exact absurd h (by simp)
          · rename_i e he
            exact ⟨e, he, h⟩
      · simp only [hlt, if_false] at hr ⊢
        subst hr
        split at h
        · rename_i heq; simp at heq
        · split at h
          · exact absurd h (by simp)
          · rename_i e he
            exact ⟨e, he, h⟩
        · rename_i i heq; simp at heq

theorem mergeInto_ok {H : Host} {store evt product merged : JS} {events : List JS} {i : Nat}
    {now : String} (h : mergeInto H store events i evt product now = .ok merged) :
    ∃ ws ws2, optProp evt "wines" = .arr ws ∧ upsertWine H ws product now = .ok ws2
      ∧ merged = store.set "events" (.arr (events.set i (evt.set "wines" (.arr ws2)))) := by
  unfold mergeInto at h
  cases hg : getProp evt "wines" with
  | error e => simp [hg] at h
  | ok w =>
    simp only [hg] at h
    cases w with
    | arr ws =>
      simp only [asArray] at h
      cases hu : upsertWine H ws product now with
      | error e => simp [hu] at h
      | ok ws2 =>
        simp only [hu] at h
        exact ⟨ws, ws2, getProp_ok_optProp hg, hu, by simpa using h.symm⟩
    | _ => simp [asArray] at h

theorem eventsOf_of_optProp {v : JS} {es : List JS} (h : optProp v "events" = .arr es) :
    eventsOf v = es := by
  simp [eventsOf, h]

theorem winesOf_of_optProp {v : JS} {ws : List JS} (h : optProp v "wines" = .arr ws) :
    winesOf v = ws := by
  simp [winesOf, h]

theorem isObject_of_optProp_arr {v : JS} {k : String} {xs : List JS}
    (h : optProp v k = .arr xs) : isObject v = true := by
  cases v <;> simp_all [optProp, getProp, isObject]
  all_goals split at h <;> simp [JS.int] at h

/-- The event Save works on and the array it is put back into: the stored event at
its place when the handle is found, a new event at the end otherwise. -/
theorem mergeNote_ok {H : Host} {store eh en product merged : JS} {now : String}
    (heh : truthy eh = true)
    (h : mergeNote H store eh en product now = .ok merged) :
    ∃ es ws2,
      optProp store "events" = .arr es
      ∧ upsertWine H (winesOf (storedEvent store eh)) product now = .ok ws2
      ∧ (if eventIndex store eh < es.length
          then isObject (storedEvent store eh) = true
            ∧ merged = store.set "events" (.arr (es.set (eventIndex store eh)
                ((storedEvent store eh).set "wines" (.arr ws2))))
          else merged = store.set "events" (.arr (es ++
                [(newEvent eh en now).set "wines" (.arr ws2)]))) := by
  unfold mergeNote at h
  cases hg : getProp store "events" with
  | error e => simp [hg] at h
  | ok evs =>
    simp only [hg] at h
    cases evs with
    | arr es =>
      have hev : optProp store "events" = .arr es := getProp_ok_optProp hg
      have hes : eventsOf store = es := eventsOf_of_optProp hev
      simp only [asArray] at h
      cases hf : findIndexM (eventHasHandle eh) es with
      | error e => simp [hf] at h
      | ok r =>
        have hr := findIndexM_ok (q := fun e => strictEq (optProp e "collection_handle") eh)
          (fun x b hx => eventHasHandle_ok hx) es r hf
        simp only [hf] at h
        refine ⟨es, ?_⟩
        by_cases hlt : es.findIdx (fun e => strictEq (optProp e "collection_handle") eh) < es.length
        · simp only [hlt, if_true] at hr
          subst hr
          have hq := List.findIdx_getElem (w := hlt)
          have hgd : es.getD (es.findIdx (fun e => strictEq (optProp e "collection_handle") eh))
              .undefined = es[es.findIdx (fun e => strictEq (optProp e "collection_handle") eh)] := by
            simp [List.getD_eq_getElem?_getD, List.getElem?_eq_getElem hlt]
          have hobj : isObject (es.getD (es.findIdx (fun e =>
              strictEq (optProp e "collection_handle") eh)) .undefined) = true := by
            rw [hgd]
            exact isObject_of_optProp_truthy (by decide) (truthy_of_strictEq hq heh)
          have htr : truthy (es.getD (es.findIdx (fun e =>
              strictEq (optProp e "collection_handle") eh)) .undefined) = true := by
            revert hobj
            cases es.getD (es.findIdx (fun e => strictEq (optProp e "collection_handle") eh))
              .undefined <;> simp [isObject, truthy]
          simp only [htr, if_true, Option.getD_some] at h
          obtain ⟨ws, ws2, hw, hu, hm⟩ := mergeInto_ok h
          refine ⟨ws2, hev, ?_, ?_⟩
          · simp only [storedEvent, eventIndex, hes]
            rw [winesOf_of_optProp hw]
            exact hu
          · simp only [eventIndex, storedEvent, hes, hlt, if_true]
            exact ⟨hobj, hm⟩
        · simp only [hlt, if_false] at hr
          subst hr
          simp only [truthy, Bool.false_eq_true, if_false] at h
          obtain ⟨ws, ws2, hw, hu, hm⟩ := mergeInto_ok h
          have hws : ws = [] := by
            simp [newEvent, optProp_obj, lookup] at hw
            exact hw
          subst hws
          have hidx : es.findIdx (fun e => strictEq (optProp e "collection_handle") eh)
              = es.length :=
            Nat.le_antisymm (List.findIdx_le_length _) (Nat.le_of_not_lt hlt)
          refine ⟨ws2, hev, ?_, ?_⟩
          · have hse : storedEvent store eh = .undefined := by
              unfold storedEvent eventIndex
              rw [hes, hidx]
              simp
            have : winesOf (storedEvent store eh) = [] := by
              rw [hse]
              rfl
            rw [this]
            exact hu
          · simp only [eventIndex, hes, hlt, if_false]
            rw [hm]
            simp
    | _ => simp [asArray] at h

theorem optProp_set_same_of_isObject {o : JS} (h : isObject o = true) (k : String) (v : JS) :
    optProp (o.set k v) k = v := by
  cases o <;> simp_all [isObject]
  exact optProp_set_same _ k v

theorem isObject_newEvent (eh en : JS) (now : String) : isObject (newEvent eh en now) = true :=
  rfl

/-- The place of the written event in the merged store: the `events` array of the
merged store holds, at the index Save works on, an object whose `wines` is the array
returned by the upsert. -/
theorem mergeNote_event {H : Host} {store eh en product merged : JS} {now : String}
    (heh : truthy eh = true)
    (h : mergeNote H store eh en product now = .ok merged) :
    ∃ es2 ev2 ws2,
      upsertWine H (winesOf (storedEvent store eh)) product now = .ok ws2
      ∧ optProp merged "events" = .arr es2
      ∧ eventIndex store eh < es2.length
      ∧ es2.getD (eventIndex store eh) .undefined = ev2
      ∧ optProp ev2 "wines" = .arr ws2 := by
  obtain ⟨es, ws2, hev, hu, hcase⟩ := mergeNote_ok heh h
  have hso : isObject store = true := isObject_of_optProp_arr hev
  by_cases hlt : eventIndex store eh < es.length
  · simp only [hlt, if_true] at hcase
    obtain ⟨hobj, hm⟩ := hcase
    refine ⟨es.set (eventIndex store eh) ((storedEvent store eh).set "wines" (.arr ws2)),
      _, ws2, hu, ?_, ?_, rfl, ?_⟩
    · rw [hm]; exact optProp_set_same_of_isObject hso _ _
    · simpa using hlt
    · have hgd : (es.set (eventIndex store eh)
          ((storedEvent store eh).set "wines" (.arr ws2))).getD (eventIndex store eh) .undefined
          = (storedEvent store eh).set "wines" (.arr ws2) := by
        simp [List.getD_eq_getElem?_getD, hlt]
      rw [hgd]
      exact optProp_set_same_of_isObject hobj _ _
  · simp only [hlt, if_false] at hcase
    have hidx : eventIndex store eh = es.length := by
      have hle : eventIndex store eh ≤ es.length := by
        unfold eventIndex
        rw [eventsOf_of_optProp hev]
        exact List.findIdx_le_length _
      omega
    refine ⟨es ++ [(newEvent eh en now).set "wines" (.arr ws2)], _, ws2, hu, ?_, ?_, rfl, ?_⟩
    · rw [hcase]; exact optProp_set_same_of_isObject hso _ _
    · simp [hidx]
    · have hgd : (es ++ [(newEvent eh en now).set "wines" (.arr ws2)]).getD
          (eventIndex store eh) .undefined = (newEvent eh en now).set "wines" (.arr ws2) := by
        rw [hidx]
        simp [List.getD_eq_getElem?_getD]
      rw [hgd]
      exact optProp_set_same_of_isObject (isObject_newEvent eh en now) _ _

/-- The entry Save writes: the document written holds, at the place Save works on,
the serialised entry built from the request (over the stored entry when there is one)
and passed through the back-fill loop. -/
theorem saveDocument_entry {H : Host} {store eh en product doc : JS} {now : String}
    (heh : truthy eh = true)
    (h : saveDocument H store eh en product now = .ok doc) :
    ∃ e e2,
      (if wineIndex H (storedEvent store eh) product < (winesOf (storedEvent store eh)).length
        then entryUpdate (storedEntry H store eh product) product now
        else entryNew (requestPid H product) product now) = .ok e
      ∧ backfill now e = .ok e2
      ∧ writtenEntry H store eh product doc = stringify e2
      ∧ (winesOf (writtenEvent store eh doc)).length
          = (if wineIndex H (storedEvent store eh) product
                < (winesOf (storedEvent store eh)).length
              then (winesOf (storedEvent store eh)).length
              else (winesOf (storedEvent store eh)).length + 1) := by
  unfold saveDocument at h
  cases hm : mergeNote H store eh en product now with
  | error e => simp [hm] at h
  | ok merged =>
    simp only [hm, Except.ok.injEq] at h
    subst h
    obtain ⟨es2, ev2, ws2, hu, hev2, hi, hgd, hw2⟩ := mergeNote_event heh hm
    obtain ⟨e, he, hmap⟩ := upsertWine_ok hu
    have hlen := mapM_ok_length _ _ hmap
    have hwev : writtenEvent store eh (stringify merged) = stringify ev2 := by
      unfold writtenEvent
      rw [eventsOf_stringify hev2, getD_map_stringify _ _ hi, hgd]
    have hwines : winesOf (writtenEvent store eh (stringify merged)) = ws2.map stringify := by
      rw [hwev, winesOf_stringify hw2]
    refine ⟨e, ws2.getD (wineIndex H (storedEvent store eh) product) .undefined, he, ?_, ?_, ?_⟩
    · by_cases hlt : wineIndex H (storedEvent store eh) product
          < (winesOf (storedEvent store eh)).length
      · have hlt2 := hlt
        unfold wineIndex at hlt2
        simp only [hlt2, if_true] at hmap
        have := mapM_ok_getD _ _ hmap (wineIndex H (storedEvent store eh) product)
          (by simpa using hlt)
        rw [← this]
        unfold wineIndex
        simp [hlt2]
      · have hlt2 := hlt
        unfold wineIndex at hlt2
        simp only [hlt2, if_false] at hmap
        have hidx : wineIndex H (storedEvent store eh) product
            = (winesOf (storedEvent store eh)).length := by
          have hle : wineIndex H (storedEvent store eh) product
              ≤ (winesOf (storedEvent store eh)).length := List.findIdx_le_length _
          omega
        have := mapM_ok_getD _ _ hmap (wineIndex H (storedEvent store eh) product)
          (by simp [hidx])
        rw [← this, hidx]
        simp
    · unfold writtenEntry
      rw [hwines]
      apply getD_map_stringify
      rw [hlen]
      by_cases hlt : wineIndex H (storedEvent store eh) product
          < (winesOf (storedEvent store eh)).length
      · have hlt2 := hlt
        unfold wineIndex at hlt2
        simp only [hlt2, if_true]
        simpa using hlt
      · have hlt2 := hlt
        unfold wineIndex at hlt2
        simp only [hlt2, if_false]
        have hle : wineIndex H (storedEvent store eh) product
            ≤ (winesOf (storedEvent store eh)).length := List.findIdx_le_length _
        simp
        omega
    · rw [hwines, List.length_map, hlen]
      by_cases hlt : wineIndex H (storedEvent store eh) product
          < (winesOf (storedEvent store eh)).length
      · have hlt2 := hlt
        unfold wineIndex at hlt2
        simp [hlt2, hlt]
      · have hlt2 := hlt
        unfold wineIndex at hlt2
        simp [hlt2, hlt]

/-! ## Save: the fields of the entry written -/

theorem lookup_setField (k k2 : String) (v : JS) (kvs : List (String × JS)) :
    lookup k2 (setField k v kvs) = if k2 = k then some v else lookup k2 kvs := by
  by_cases h : k2 = k
  · subst h; simp [lookup_setField_same]
  · simp [h, lookup_setField_other h]

theorem sliceTo_ok {n : Nat} {v r : JS} (h : sliceTo n v = .ok r) :
    (∃ s, v = .str s ∧ r = .str (String.mk (s.data.take n)))
      ∨ (∃ xs, v = .arr xs ∧ r = .arr (xs.take n)) := by
  cases v <;> simp [sliceTo] at h
  · exact Or.inl ⟨_, rfl, h.symm⟩
  · exact Or.inr ⟨_, rfl, h.symm⟩

theorem entryNew_ok {pid : JNum} {product e : JS} {now : String}
    (h : entryNew pid product now = .ok e) :
    ∃ nose palate note,
      sliceTo 2000 (jsOr (optProp product "nose") (.str "")) = .ok nose
      ∧ sliceTo 2000 (jsOr (optProp product "palate") (.str "")) = .ok palate
      ∧ sliceTo 2000 (jsOr (optProp product "note") (.str "")) = .ok note
      ∧ e = .obj [("product_id", .num pid),
               ("handle", jsOr (optProp product "handle") (.str "")),
               ("title", jsOr (optProp product "title") (.str "")),
               ("rating", if isNumber (optProp product "rating") then optProp product "rating"
                          else .null),
               ("nose", nose),
               ("palate", palate),
               ("note", note),
               ("created_at", .str now),
               ("updated_at", .str now)] := by
  unfold entryNew at h
  split at h
  · rename_i nose palate note h1 h2 h3
    simp only [Except.ok.injEq] at h
    exact ⟨nose, palate, note, h1, h2, h3, h.symm⟩
  · simp at h

theorem entryUpdate_ok {existing product e : JS} {now : String}
    (h : entryUpdate existing product now = .ok e) :
    ∃ nose palate note,
      sliceTo 2000 (jsCoalesce (optProp product "nose")
          (jsCoalesce (optProp existing "nose") (.str ""))) = .ok nose
      ∧ sliceTo 2000 (jsCoalesce (optProp product "palate")
          (jsCoalesce (optProp existing "palate") (.str ""))) = .ok palate
      ∧ sliceTo 2000 (jsCoalesce (optProp product "note")
          (jsCoalesce (optProp existing "note") (.str ""))) = .ok note
      ∧ e = .obj
      (setField "updated_at" (.str now)
      (setField "created_at"
          (jsOr (optProp existing "created_at") (jsOr (optProp existing "updated_at") (.str now)))
      (setField "note" note
      (setField "palate" palate
      (setField "nose" nose
      (setField "rating"
          (if isNumber (optProp product "rating") then optProp product "rating"
           else jsCoalesce (optProp existing "rating") .null)
      (setField "title"
          (jsOr (optProp product "title") (jsOr (optProp existing "title") (.str "")))
      (setField "handle"
          (jsOr (optProp product "handle") (jsOr (optProp existing "handle") (.str "")))
      (spread existing))))))))) := by
  unfold entryUpdate at h
  split at h
  · rename_i nose palate note h1 h2 h3
    simp only [Except.ok.injEq] at h
    exact ⟨nose, palate, note, h1, h2, h3, h.symm⟩
  · simp at h

/-- The back-fill loop leaves every property but `created_at` as it is, leaves an
entry with a truthy `created_at` untouched, and gives an object without one the
value `updated_at || now`. -/
theorem backfill_ok {now : String} {w w2 : JS} (h : backfill now w = .ok w2) :
    (∀ k, k ≠ "created_at" → optProp w2 k = optProp w k)
      ∧ (truthy (optProp w "created_at") = true → w2 = w)
      ∧ (isObject w = true → truthy (optProp w "created_at") = false →
          optProp w2 "created_at" = jsOr (optProp w "updated_at") (.str now)) := by
  unfold backfill at h
  cases hg : getProp w "created_at" with
  | error e => simp [hg] at h
  | ok c =>
    have hc : optProp w "created_at" = c := getProp_ok_optProp hg
    simp only [hg] at h
    by_cases ht : truthy c = true
    · simp only [ht, if_true, Except.ok.injEq] at h
      subst h
      simp [hc, ht]
    · simp only [ht, Bool.false_eq_true, if_false] at h
      cases w with
      | obj kvs =>
        simp only [Except.ok.injEq] at h
        subst h
        refine ⟨?_, ?_, ?_⟩
        · intro k hk
          simp [optProp_obj, lookup_setField, hk]
        · intro h2; rw [hc] at h2; exact absurd h2 ht
        · intro _ _
          simp [optProp_obj, lookup_setField]
      | arr xs =>
        simp only [Except.ok.injEq] at h
        subst h
        refine ⟨fun _ _ => rfl, fun _ => rfl, ?_⟩
        intro h2; simp [isObject] at h2
      | undefined => simp at h
      | null => simp at h
      | bool b => simp at h
      | num n => simp at h
      | str s => simp at h

theorem truthy_ne_undefined {v : JS} (h : truthy v = true) : v ≠ .undefined := by
  intro hv; subst hv; simp [truthy] at h

theorem isPlain_ne_undefined {v : JS} (h : isPlain v = true) : v ≠ .undefined := by
  intro hv; subst hv; simp [isPlain] at h

theorem optProp_undefined (k : String) : optProp .undefined k = .undefined := rfl

theorem storedEntry_undefined_of_not_lt {H : Host} {store eh product : JS}
    (h : ¬ wineIndex H (storedEvent store eh) product < (winesOf (storedEvent store eh)).length) :
    storedEntry H store eh product = .undefined := by
  unfold storedEntry
  simp [List.getD_eq_getElem?_getD, List.getElem?_eq_none (Nat.le_of_not_lt h)]

theorem getD_of_lt (xs : List JS) {i : Nat} (h : i < xs.length) :
    xs.getD i .undefined = xs[i] := by
  simp [List.getD_eq_getElem?_getD, List.getElem?_eq_getElem h]

/-! ## Save: a well-shaped request on a well-shaped document is written -/

theorem getProp_of_isObject {v : JS} (h : isObject v = true) (k : String) :
    getProp v k = .ok (optProp v k) := by
  cases v <;> simp_all [isObject, getProp, optProp]

theorem sliceTo_text {v : JS} (h : textOrAbsent v = true) :
    (∃ r, sliceTo 2000 (jsOr v (.str "")) = .ok r)
      ∧ ∀ x, textOrAbsent x = true →
          ∃ r, sliceTo 2000 (jsCoalesce v (jsCoalesce x (.str ""))) = .ok r := by
  constructor
  · cases v with
    | str s => by_cases hs : s = "" <;> simp [jsOr, truthy, hs, sliceTo]
    | undefined => simp [jsOr, truthy, sliceTo]
    | null => simp [jsOr, truthy, sliceTo]
    | _ => simp [textOrAbsent] at h
  · intro x hx
    cases v <;> cases x <;> simp_all [textOrAbsent, jsCoalesce, nullish, sliceTo]

theorem entryNew_total {pid : JNum} {product : JS} (now : String)
    (hp : entryShaped product = true) :
    ∃ e, entryNew pid product now = .ok e ∧ isObject e = true := by
  simp only [entryShaped, Bool.and_eq_true] at hp
  obtain ⟨⟨⟨_, h1⟩, h2⟩, h3⟩ := hp
  obtain ⟨r1, hr1⟩ := (sliceTo_text h1).1
  obtain ⟨r2, hr2⟩ := (sliceTo_text h2).1
  obtain ⟨r3, hr3⟩ := (sliceTo_text h3).1
  have hex : ∃ e, entryNew pid product now = .ok e := by
    simp only [entryNew, hr1, hr2, hr3]
    exact ⟨_, rfl⟩
  obtain ⟨e, he⟩ := hex
  obtain ⟨_, _, _, _, _, _, hE⟩ := entryNew_ok he
  exact ⟨e, he, by rw [hE]; rfl⟩

theorem entryUpdate_total {existing product : JS} (now : String)
    (hx : entryShaped existing = true) (hp : entryShaped product = true) :
    ∃ e, entryUpdate existing product now = .ok e ∧ isObject e = true := by
  simp only [entryShaped, Bool.and_eq_true] at hp hx
  obtain ⟨⟨⟨_, h1⟩, h2⟩, h3⟩ := hp
  obtain ⟨⟨⟨_, x1⟩, x2⟩, x3⟩ := hx
  obtain ⟨r1, hr1⟩ := (sliceTo_text h1).2 _ x1
  obtain ⟨r2, hr2⟩ := (sliceTo_text h2).2 _ x2
  obtain ⟨r3, hr3⟩ := (sliceTo_text h3).2 _ x3
  have hex : ∃ e, entryUpdate existing product now = .ok e := by
    simp only [entryUpdate, hr1, hr2, hr3]
    exact ⟨_, rfl⟩
  obtain ⟨e, he⟩ := hex
  obtain ⟨_, _, _, _, _, _, hE⟩ := entryUpdate_ok he
  exact ⟨e, he, by rw [hE]; rfl⟩

theorem backfill_total (now : String) {w : JS} (h : isObject w = true) :
    ∃ w2, backfill now w = .ok w2 := by
  cases w with
  | obj kvs =>
    unfold backfill
    simp only [getProp]
    split <;> exact ⟨_, rfl⟩
  | _ => simp [isObject] at h

theorem isObject_of_entryShaped {w : JS} (h : entryShaped w = true) : isObject w = true := by
  simp only [entryShaped, Bool.and_eq_true] at h
  exact h.1.1.1

theorem upsertWine_total (H : Host) {ws : List JS} {product : JS} (now : String)
    (hws : ∀ w ∈ ws, entryShaped w = true) (hp : productShaped product = true) :
    ∃ ws2, upsertWine H ws product now = .ok ws2 := by
  simp only [productShaped, Bool.and_eq_true] at hp
  obtain ⟨hp, hconv⟩ := hp
  have hpo : isObject product = true := isObject_of_entryShaped hp
  unfold upsertWine
  rw [getProp_of_isObject hpo "product_id"]
  simp only
  rw [toNumber_of_convertible H hconv]
  simp only
  have hfind := findIndexM_total (p := wineHasPid (numericValue H (optProp product "product_id")))
    (q := fun w => strictEq (optProp w "product_id")
      (.num (numericValue H (optProp product "product_id")))) ws
    (fun w hw => by
      unfold wineHasPid
      rw [getProp_of_isObject (isObject_of_entryShaped (hws w hw)) "product_id"])
  rw [hfind]
  by_cases hlt : ws.findIdx (fun w => strictEq (optProp w "product_id")
      (.num (numericValue H (optProp product "product_id")))) < ws.length
  · simp only [hlt, if_true]
    have hmem : ws.getD (ws.findIdx (fun w => strictEq (optProp w "product_id")
        (.num (numericValue H (optProp product "product_id"))))) .undefined ∈ ws := by
      rw [getD_of_lt ws hlt]
      exact List.getElem_mem _
    obtain ⟨e, he, heo⟩ := entryUpdate_total now (hws _ hmem) hp
    rw [he]
    simp only
    apply mapM_total
    intro x hx
    rcases List.mem_or_eq_of_mem_set hx with hin | rfl
    · exact backfill_total now (isObject_of_entryShaped (hws x hin))
    · exact backfill_total now heo
  · simp only [hlt, if_false]
    obtain ⟨e, he, heo⟩ :=
      @entryNew_total (numericValue H (optProp product "product_id")) product now hp
    rw [he]
    simp only
    apply mapM_total
    intro x hx
    rcases List.mem_append.mp hx with hin | hin
    · exact backfill_total now (isObject_of_entryShaped (hws x hin))
    · rw [List.mem_singleton.mp hin]
      exact backfill_total now heo

theorem eventShaped_wines {e : JS} (h : eventShaped e = true) :
    isObject e = true ∧ ∃ ws, optProp e "wines" = .arr ws ∧ ∀ w ∈ ws, entryShaped w = true := by
  simp only [eventShaped, Bool.and_eq_true] at h
  refine ⟨h.1, ?_⟩
  cases hw : optProp e "wines" with
  | arr ws =>
    refine ⟨ws, rfl, ?_⟩
    have h2 := h.2
    rw [hw] at h2
    simpa using h2
  | _ =>
    have h2 := h.2
    rw [hw] at h2
    simp at h2

theorem truthy_of_isObject {v : JS} (h : isObject v = true) : truthy v = true := by
  cases v <;> simp_all [isObject, truthy]

/-- Save writes: on a stored document of the shape of the data model and a request
product of the shape of the interface, the merge succeeds and a document is handed to
the write. -/
theorem saveDocument_total (H : Host) (store eh en product : JS) (now : String)
    (hs : documentShaped store = true) (hp : productShaped product = true) :
    ∃ doc, saveDocument H store eh en product now = .ok doc := by
  unfold documentShaped at hs
  cases hev : optProp store "events" with
  | arr es =>
    rw [hev] at hs
    have hall : ∀ e ∈ es, eventShaped e = true := by simpa using hs
    have hso : isObject store = true := isObject_of_optProp_arr hev
    have hfind := findIndexM_total (p := eventHasHandle eh)
      (q := fun e => strictEq (optProp e "collection_handle") eh) es
      (fun e he => by
        unfold eventHasHandle
        rw [getProp_of_isObject (eventShaped_wines (hall e he)).1 "collection_handle"])
    have hmerge : ∃ merged, mergeNote H store eh en product now = .ok merged := by
      unfold mergeNote
      rw [getProp_of_isObject hso "events", hev]
      simp only [asArray, hfind]
      by_cases hlt : es.findIdx (fun e => strictEq (optProp e "collection_handle") eh)
          < es.length
      · simp only [hlt, if_true]
        have hmem : es.getD (es.findIdx (fun e =>
            strictEq (optProp e "collection_handle") eh)) .undefined ∈ es := by
          rw [getD_of_lt es hlt]
          exact List.getElem_mem _
        obtain ⟨hobj, ws, hws, hshaped⟩ := eventShaped_wines (hall _ hmem)
        obtain ⟨ws2, hu⟩ := upsertWine_total H now hshaped hp
        simp only [truthy_of_isObject hobj, if_true, mergeInto, getProp_of_isObject hobj "wines",
          hws, asArray, hu]
        exact ⟨_, rfl⟩
      · simp only [hlt, if_false]
        obtain ⟨ws2, hu⟩ := @upsertWine_total H [] product now (fun _ hw => nomatch hw) hp
        have hw0 : getProp (newEvent eh en now) "wines" = .ok (.arr []) := rfl
        simp only [truthy, Bool.false_eq_true, if_false, mergeInto, hw0, asArray, hu]
        exact ⟨_, rfl⟩
    obtain ⟨merged, hm⟩ := hmerge
    exact ⟨stringify merged, by simp only [saveDocument, hm]⟩
  | _ => rw [hev] at hs; simp at hs

/-- The document `saveDocument` computes is the one the handler hands to
`metafieldsSet`: past the reads, the handler answers with the error envelope when the
merge throws and issues the write otherwise. -/
theorem savePOST_loaded {H : Host} {up : SaveUpstream} {origin : String} {body : Option JS}
    {f : SaveFields} {store : JS} (now : String)
    (h : saveLoad H up origin body = .store f store) :
    savePOST H up origin body now
      = (match saveDocument H store f.event_handle f.event_name f.product now with
         | .error e =>
           (.serverError e, [.customerQuery f.customer_id, .metafieldQuery f.customer_id])
         | .ok doc =>
           (saveWrite up f.customer_id doc,
             [.customerQuery f.customer_id, .metafieldQuery f.customer_id,
              .metafieldsSet f.customer_id doc])) := by
  unfold savePOST
  rw [h]

/-! ## Save: the claims -/

/-- C2. Save is idempotent on `created_at`: when the entry that the stored document
holds for the request's event handle and product id has a set (truthy) `created_at`
value `c`, the document Save writes at time `now` holds, at the place of that entry,
`created_at = c` and `updated_at = now`, and the event has as many wines as before;
and Save does write a document when the stored document and the request product have
the shapes of the data model. -/
theorem save_preserves_created_at (H : Host) (store eh en product c : JS) (now : String)
    (heh : truthy eh = true)
    (hc : optProp (storedEntry H store eh product) "created_at" = c)
    (hct : truthy c = true) (hcp : isPlain c = true) :
    (∀ doc, saveDocument H store eh en product now = .ok doc →
        optProp (writtenEntry H store eh product doc) "created_at" = c
          ∧ optProp (writtenEntry H store eh product doc) "updated_at" = .str now
          ∧ (winesOf (writtenEvent store eh doc)).length
              = (winesOf (storedEvent store eh)).length)
      ∧ (documentShaped store = true → productShaped product = true →
          ∃ doc, saveDocument H store eh en product now = .ok doc) := by
  refine ⟨?_, fun hs hp => saveDocument_total H store eh en product now hs hp⟩
  intro doc h
  obtain ⟨e, e2, he, hb, hw, hlen⟩ := saveDocument_entry heh h
  have hlt : wineIndex H (storedEvent store eh) product
      < (winesOf (storedEvent store eh)).length := by
    by_contra hn
    rw [storedEntry_undefined_of_not_lt hn, optProp_undefined] at hc
    subst hc
    simp [truthy] at hct
  simp only [hlt, if_true] at he hlen
  obtain ⟨nose, palate, note, _, _, _, hE⟩ := entryUpdate_ok he
  have hcr : optProp e "created_at" = c := by
    subst hE
    simp [optProp_obj, lookup_setField, hc, jsOr, hct]
  have hup : optProp e "updated_at" = .str now := by
    subst hE
    simp [optProp_obj, lookup_setField]
  have he2 : e2 = e := (backfill_ok hb).2.1 (by rw [hcr]; exact hct)
  subst he2
  refine ⟨?_, ?_, hlen⟩
  · rw [hw, optProp_stringify (by decide) hcr (truthy_ne_undefined hct), stringify_plain c hcp]
  · rw [hw, optProp_stringify (by decide) hup (by simp)]
    simp [stringify]

/-- Witness for C2: product 42, stored on 2024-05-01, is rated again on 2024-06-01. -/
theorem save_preserves_created_at_witness :
    documentShaped sampleStore = true ∧ productShaped sampleRating = true
      ∧ saveDocument sampleHost sampleStore (.str "spring-tasting") .undefined sampleRating
          sampleNow = .ok sampleRated
      ∧ optProp (writtenEntry sampleHost sampleStore (.str "spring-tasting") sampleRating
          sampleRated) "created_at" = .str "2024-05-01T10:00:00.000Z"
      ∧ optProp (writtenEntry sampleHost sampleStore (.str "spring-tasting") sampleRating
          sampleRated) "updated_at" = .str sampleNow
      ∧ (winesOf (writtenEvent sampleStore (.str "spring-tasting") sampleRated)).length
          = (winesOf (storedEvent sampleStore (.str "spring-tasting"))).length :=
  ⟨rfl, rfl, rfl, (save_preserves_created_at sampleHost sampleStore (.str "spring-tasting") .undefined
    sampleRating (.str "2024-05-01T10:00:00.000Z") sampleNow rfl rfl rfl rfl).1
      sampleRated rfl⟩

/-- A sliced text, written: a string of at most `n` characters or an array of at most
`n` elements, and the first `n` characters of the text when the text was a string. -/
theorem written_slice {n : Nat} {v r e : JS} {f : String} (hf : f ≠ "length")
    (hs : sliceTo n v = .ok r) (he : optProp e f = r) :
    ((∃ s, optProp (stringify e) f = .str s ∧ s.length ≤ n)
        ∨ (∃ xs, optProp (stringify e) f = .arr xs ∧ xs.length ≤ n))
      ∧ ∀ s, v = .str s → optProp (stringify e) f = .str (String.mk (s.data.take n)) := by
  rcases sliceTo_ok hs with ⟨s, hv, hr⟩ | ⟨xs, hv, hr⟩
  · have hw : optProp (stringify e) f = .str (String.mk (s.data.take n)) := by
      rw [optProp_stringify hf he (by rw [hr]; simp), hr]
      simp [stringify]
    refine ⟨Or.inl ⟨_, hw, ?_⟩, ?_⟩
    · show (s.data.take n).length ≤ n
      exact List.length_take_le _ _
    · intro s2 hs2
      rw [hv] at hs2
      cases hs2
      exact hw
  · have hw : optProp (stringify e) f = .arr ((xs.take n).map stringify) := by
      rw [optProp_stringify hf he (by rw [hr]; simp), hr]
      simp [stringify, stringifyElems_eq_map]
    refine ⟨Or.inr ⟨_, hw, ?_⟩, ?_⟩
    · simp
    · intro s2 hs2
      rw [hv] at hs2
      cases hs2

theorem jsOr_long {s : String} (h : 2000 < s.length) (b : JS) : jsOr (.str s) b = .str s := by
  have : s ≠ "" := by
    intro hs; subst hs; simp at h
  simp [jsOr, truthy, this]

theorem jsCoalesce_str (s : String) (b : JS) : jsCoalesce (.str s) b = .str s := rfl

/-- C4. Save truncates text fields: in the document Save writes, each of `nose`,
`palate` and `note` of the entry written (inserted or updated) has length at most
2000 (it is a string of at most 2000 characters, or an array of at most 2000
elements when the texts involved were arrays), and when the request supplies a string
longer than 2000 characters the stored value is exactly its first 2000 characters;
and Save does write a document when the stored document and the request product have
the shapes of the data model. -/
theorem save_truncates_text (H : Host) (store eh en product : JS) (now : String)
    (f : String) (hf : f = "nose" ∨ f = "palate" ∨ f = "note")
    (heh : truthy eh = true) :
    (∀ doc, saveDocument H store eh en product now = .ok doc →
        ((∃ s, optProp (writtenEntry H store eh product doc) f = .str s ∧ s.length ≤ 2000)
            ∨ (∃ xs, optProp (writtenEntry H store eh product doc) f = .arr xs
                ∧ xs.length ≤ 2000))
          ∧ ∀ s : String, optProp product f = .str s → 2000 < s.length →
              optProp (writtenEntry H store eh product doc) f
                = .str (String.mk (s.data.take 2000)))
      ∧ (documentShaped store = true → productShaped product = true →
          ∃ doc, saveDocument H store eh en product now = .ok doc) := by
  refine ⟨?_, fun hs hp => saveDocument_total H store eh en product now hs hp⟩
  intro doc h
  obtain ⟨e, e2, he, hb, hw, _⟩ := saveDocument_entry heh h
  have hfc : f ≠ "created_at" := by rcases hf with rfl | rfl | rfl <;> decide
  have hfl : f ≠ "length" := by rcases hf with rfl | rfl | rfl <;> decide
  have hkeep : optProp e2 f = optProp e f := (backfill_ok hb).1 f hfc
  rw [hw]
  by_cases hlt : wineIndex H (storedEvent store eh) product
      < (winesOf (storedEvent store eh)).length
  · simp only [hlt, if_true] at he
    obtain ⟨nose, palate, note, h1, h2, h3, hE⟩ := entryUpdate_ok he
    have key : ∃ r, sliceTo 2000 (jsCoalesce (optProp product f)
        (jsCoalesce (optProp (storedEntry H store eh product) f) (.str ""))) = .ok r
        ∧ optProp e2 f = r := by
      rw [hkeep]
      subst hE
      rcases hf with rfl | rfl | rfl
      · exact ⟨nose, h1, by simp [optProp_obj, lookup_setField]⟩
      · exact ⟨palate, h2, by simp [optProp_obj, lookup_setField]⟩
      · exact ⟨note, h3, by simp [optProp_obj, lookup_setField]⟩
    obtain ⟨r, hr, her⟩ := key
    have hws := written_slice hfl hr her
    refine ⟨hws.1, ?_⟩
    intro s hs _
    exact hws.2 s (by rw [hs, jsCoalesce_str])
  · simp only [hlt, if_false] at he
    obtain ⟨nose, palate, note, h1, h2, h3, hE⟩ := entryNew_ok he
    have key : ∃ r, sliceTo 2000 (jsOr (optProp product f) (.str "")) = .ok r
        ∧ optProp e2 f = r := by
      rw [hkeep]
      subst hE
      rcases hf with rfl | rfl | rfl
      · exact ⟨nose, h1, by simp [optProp_obj, lookup]⟩
      · exact ⟨palate, h2, by simp [optProp_obj, lookup]⟩
      · exact ⟨note, h3, by simp [optProp_obj, lookup]⟩
    obtain ⟨r, hr, her⟩ := key
    have hws := written_slice hfl hr her
    refine ⟨hws.1, ?_⟩
    intro s hs hlen
    exact hws.2 s (by rw [hs, jsOr_long hlen])

/-- Witness for C4: a `nose` of 2001 characters is saved into the empty store. -/
theorem save_truncates_text_witness :
    documentShaped emptyStore = true ∧ productShaped sampleLong = true
      ∧ saveDocument sampleHost emptyStore (.str "spring-tasting") .undefined sampleLong
          sampleNow = .ok sampleLongSaved
      ∧ longText.length = 2001
      ∧ optProp (writtenEntry sampleHost emptyStore (.str "spring-tasting") sampleLong
          sampleLongSaved) "nose" = .str (String.mk (longText.data.take 2000))
      ∧ (String.mk (longText.data.take 2000)).length = 2000 :=
  have hlen : longText.length = 2001 := List.length_replicate 2001 'a'
  ⟨rfl, rfl, rfl, hlen,
    ((save_truncates_text sampleHost emptyStore (.str "spring-tasting") .undefined
      sampleLong sampleNow "nose" (Or.inl rfl) rfl).1 sampleLongSaved rfl).2 longText rfl
      (by rw [hlen]; decide),
    by
      show (longText.data.take 2000).length = 2000
      rw [List.length_take]
      show min 2000 longText.length = 2000
      rw [hlen]
      decide⟩

/-! ## JSON data is closed under the operations of the merge -/

theorem plain_jsOr {a b : JS} (ha : a = .undefined ∨ isPlain a = true) (hb : isPlain b = true) :
    isPlain (jsOr a b) = true := by
  unfold jsOr
  rcases ha with rfl | ha
  · simp [truthy, hb]
  · split <;> assumption

theorem plain_jsCoalesce {a b : JS} (ha : a = .undefined ∨ isPlain a = true)
    (hb : isPlain b = true) : isPlain (jsCoalesce a b) = true := by
  unfold jsCoalesce
  rcases ha with rfl | ha
  · simp [nullish, hb]
  · split <;> assumption

theorem plain_sliceTo {n : Nat} {v r : JS} (hv : isPlain v = true) (h : sliceTo n v = .ok r) :
    isPlain r = true := by
  rcases sliceTo_ok h with ⟨s, _, hr⟩ | ⟨xs, hx, hr⟩
  · rw [hr]; rfl
  · subst hx
    rw [hr]
    simp only [isPlain] at hv ⊢
    rw [allPlain_iff] at hv ⊢
    exact fun x hx => hv x (List.mem_of_mem_take hx)

theorem getD_eq_default_or_mem (xs : List JS) (i : Nat) :
    xs.getD i .undefined = .undefined ∨ xs.getD i .undefined ∈ xs := by
  by_cases h : i < xs.length
  · right
    simp [List.getD_eq_getElem?_getD, List.getElem?_eq_getElem h]
  · left
    simp [List.getD_eq_getElem?_getD, List.getElem?_eq_none (Nat.le_of_not_lt h)]

theorem plain_eventsOf {v : JS} (h : v = .undefined ∨ isPlain v = true) :
    ∀ e ∈ eventsOf v, isPlain e = true := by
  intro e he
  rcases h with rfl | h
  · simp [eventsOf, optProp, getProp] at he
  · unfold eventsOf at he
    rcases plain_optProp h "events" with hu | hp
    · simp [hu] at he
    · cases hv : optProp v "events" with
      | arr es =>
        rw [hv] at he hp
        simp only [isPlain] at hp
        exact (allPlain_iff es).mp hp e he
      | _ => simp [hv] at he

theorem plain_winesOf {v : JS} (h : v = .undefined ∨ isPlain v = true) :
    ∀ w ∈ winesOf v, isPlain w = true := by
  intro w hw
  rcases h with rfl | h
  · simp [winesOf, optProp, getProp] at hw
  · unfold winesOf at hw
    rcases plain_optProp h "wines" with hu | hp
    · simp [hu] at hw
    · cases hv : optProp v "wines" with
      | arr ws =>
        rw [hv] at hw hp
        simp only [isPlain] at hp
        exact (allPlain_iff ws).mp hp w hw
      | _ => simp [hv] at hw

theorem plain_storedEvent {store : JS} (h : isPlain store = true) (eh : JS) :
    storedEvent store eh = .undefined ∨ isPlain (storedEvent store eh) = true := by
  rcases getD_eq_default_or_mem (eventsOf store) (eventIndex store eh) with hu | hm
  · exact Or.inl hu
  · exact Or.inr (plain_eventsOf (Or.inr h) _ hm)

theorem plain_storedEntry {store : JS} (h : isPlain store = true) (H : Host) (eh product : JS) :
    storedEntry H store eh product = .undefined
      ∨ isPlain (storedEntry H store eh product) = true := by
  rcases getD_eq_default_or_mem (winesOf (storedEvent store eh))
      (wineIndex H (storedEvent store eh) product) with hu | hm
  · exact Or.inl hu
  · exact Or.inr (plain_winesOf (plain_storedEvent h eh) _ hm)

theorem plain_optProp_of {v : JS} (h : v = .undefined ∨ isPlain v = true) (k : String) :
    optProp v k = .undefined ∨ isPlain (optProp v k) = true := by
  rcases h with rfl | h
  · exact Or.inl rfl
  · exact plain_optProp h k

/-- A property holding JSON data is written as it is. -/
theorem optProp_stringify_plain {e x : JS} {k : String} (hk : k ≠ "length")
    (h : optProp e k = x) (hx : isPlain x = true) : optProp (stringify e) k = x := by
  rw [optProp_stringify hk h (isPlain_ne_undefined hx), stringify_plain x hx]

theorem plain_rating {product ex : JS} (hp : isPlain product = true)
    (hx : ex = .undefined ∨ isPlain ex = true) :
    isPlain (if isNumber (optProp product "rating") = true then optProp product "rating"
      else jsCoalesce (optProp ex "rating") .null) = true := by
  split
  · rename_i hn
    rcases plain_optProp hp "rating" with hu | hpl
    · rw [hu] at hn; simp [isNumber] at hn
    · exact hpl
  · exact plain_jsCoalesce (plain_optProp_of hx "rating") rfl

/-- C5, amended. Save overlays the fields of an entry the stored document already
holds: in the entry written, `handle` and `title` take the request's value when it is
non-empty (truthy), else the stored value when that is non-empty, else `""`; `rating`
takes the request's value when it is a number, else the stored rating (`null` when
there is none); each of `nose`, `palate` and `note` takes the request's value when
it is neither absent nor `null` (the empty string included), else the stored value
(`""` when there is none), cut to 2000 characters; and Save does write a document
when the stored document and the request product have the shapes of the data model. -/
theorem save_overlays_fields (H : Host) (store eh en product : JS) (now : String)
    (heh : truthy eh = true)
    (hheld : wineIndex H (storedEvent store eh) product
      < (winesOf (storedEvent store eh)).length)
    (hps : isPlain store = true) (hpp : isPlain product = true) :
    (∀ doc, saveDocument H store eh en product now = .ok doc →
      optProp (writtenEntry H store eh product doc) "handle"
          = (if truthy (optProp product "handle") = true then optProp product "handle"
             else if truthy (optProp (storedEntry H store eh product) "handle") = true
               then optProp (storedEntry H store eh product) "handle"
             else .str "")
        ∧ optProp (writtenEntry H store eh product doc) "title"
          = (if truthy (optProp product "title") = true then optProp product "title"
             else if truthy (optProp (storedEntry H store eh product) "title") = true
               then optProp (storedEntry H store eh product) "title"
             else .str "")
        ∧ optProp (writtenEntry H store eh product doc) "rating"
          = (if isNumber (optProp product "rating") = true then optProp product "rating"
             else if nullish (optProp (storedEntry H store eh product) "rating") = true
               then .null
             else optProp (storedEntry H store eh product) "rating")
        ∧ ∀ f : String, f = "nose" ∨ f = "palate" ∨ f = "note" →
            sliceTo 2000
              (if nullish (optProp product f) = true then
                 (if nullish (optProp (storedEntry H store eh product) f) = true then .str ""
                  else optProp (storedEntry H store eh product) f)
               else optProp product f)
              = .ok (optProp (writtenEntry H store eh product doc) f))
      ∧ (documentShaped store = true → productShaped product = true →
          ∃ doc, saveDocument H store eh en product now = .ok doc) := by
  refine ⟨?_, fun hs hp => saveDocument_total H store eh en product now hs hp⟩
  intro doc h
  obtain ⟨e, e2, he, hb, hw, _⟩ := saveDocument_entry heh h
  simp only [hheld, if_true] at he
  obtain ⟨nose, palate, note, h1, h2, h3, hE⟩ := entryUpdate_ok he
  have hex := plain_storedEntry hps H eh product
  have hkeep := (backfill_ok hb).1
  rw [hw]
  refine ⟨?_, ?_, ?_, ?_⟩
  · have hval : optProp e2 "handle" = jsOr (optProp product "handle")
        (jsOr (optProp (storedEntry H store eh product) "handle") (.str "")) := by
      rw [hkeep "handle" (by decide), hE]
      simp [optProp_obj, lookup_setField]
    have hpl := plain_jsOr (plain_optProp hpp "handle")
      (plain_jsOr (plain_optProp_of hex "handle") (b := .str "") rfl)
    rw [optProp_stringify_plain (by decide) hval hpl]
    simp only [jsOr]
  · have hval : optProp e2 "title" = jsOr (optProp product "title")
        (jsOr (optProp (storedEntry H store eh product) "title") (.str "")) := by
      rw [hkeep "title" (by decide), hE]
      simp [optProp_obj, lookup_setField]
    have hpl := plain_jsOr (plain_optProp hpp "title")
      (plain_jsOr (plain_optProp_of hex "title") (b := .str "") rfl)
    rw [optProp_stringify_plain (by decide) hval hpl]
    simp only [jsOr]
  · have hval : optProp e2 "rating"
        = (if isNumber (optProp product "rating") = true then optProp product "rating"
           else jsCoalesce (optProp (storedEntry H store eh product) "rating") .null) := by
      rw [hkeep "rating" (by decide), hE]
      simp [optProp_obj, lookup_setField]
    rw [optProp_stringify_plain (by decide) hval (plain_rating hpp hex)]
    simp only [jsCoalesce]
  · intro f hf
    have hfc : f ≠ "created_at" := by rcases hf with rfl | rfl | rfl <;> decide
    have hfl : f ≠ "length" := by rcases hf with rfl | rfl | rfl <;> decide
    have key : ∃ r, sliceTo 2000 (jsCoalesce (optProp product f)
        (jsCoalesce (optProp (storedEntry H store eh product) f) (.str ""))) = .ok r
        ∧ optProp e2 f = r := by
      rw [hkeep f hfc]
      subst hE
      rcases hf with rfl | rfl | rfl
      · exact ⟨nose, h1, by simp [optProp_obj, lookup_setField]⟩
      · exact ⟨palate, h2, by simp [optProp_obj, lookup_setField]⟩
      · exact ⟨note, h3, by simp [optProp_obj, lookup_setField]⟩
    obtain ⟨r, hr, her⟩ := key
    have hpl : isPlain r = true :=
      plain_sliceTo (plain_jsCoalesce (plain_optProp hpp f)
        (plain_jsCoalesce (plain_optProp_of hex f) (b := .str "") rfl)) hr
    rw [optProp_stringify_plain hfl her hpl, ← hr]
    simp only [jsCoalesce]

/-- Witness for C5, amended: product 42 of `sampleStore` is rated again. -/
theorem save_overlays_fields_witness :
    documentShaped sampleStore = true ∧ productShaped sampleRating = true
      ∧ saveDocument sampleHost sampleStore (.str "spring-tasting") .undefined sampleRating
          sampleNow = .ok sampleRated
      ∧ optProp (writtenEntry sampleHost sampleStore (.str "spring-tasting") sampleRating
          sampleRated) "rating" = JS.int 5
      ∧ optProp (writtenEntry sampleHost sampleStore (.str "spring-tasting") sampleRating
          sampleRated) "title" = .str "Merlot 2019" :=
  have key := (save_overlays_fields sampleHost sampleStore (.str "spring-tasting") .undefined
    sampleRating sampleNow rfl (by decide) rfl rfl).1 sampleRated rfl
  ⟨rfl, rfl, rfl, key.2.2.1, key.2.1⟩

/-- Counterexample to C5 as stated: the request supplies an empty `title` and an empty
`nose` for an entry stored with title "Merlot 2019" and nose "citrus". The written
entry keeps the stored title and takes the empty nose, so the empty string is neither
always taken as a supplied value nor always left out as an absent one. -/
theorem save_overlay_counterexample :
    saveDocument sampleHost sampleStore (.str "spring-tasting") .undefined sampleBlank sampleNow
        = .ok sampleBlanked
      ∧ optProp sampleBlank "title" = .str ""
      ∧ optProp sampleBlank "nose" = .str ""
      ∧ optProp (storedEntry sampleHost sampleStore (.str "spring-tasting") sampleBlank) "title"
          = .str "Merlot 2019"
      ∧ optProp (storedEntry sampleHost sampleStore (.str "spring-tasting") sampleBlank) "nose"
          = .str "citrus"
      ∧ optProp (writtenEntry sampleHost sampleStore (.str "spring-tasting") sampleBlank
          sampleBlanked) "title" = .str "Merlot 2019"
      ∧ optProp (writtenEntry sampleHost sampleStore (.str "spring-tasting") sampleBlank
          sampleBlanked) "nose" = .str "" :=
  ⟨rfl, rfl, rfl, rfl, rfl, rfl, rfl⟩

theorem stringifyFields_cons {k : String} {v : JS} (hv : v ≠ .undefined)
    (r : List (String × JS)) :
    stringifyFields ((k, v) :: r) = (k, stringify v) :: stringifyFields r := by
  cases v <;> simp_all [stringifyFields]

theorem mapM_singleton {f : JS → Except Thrown JS} {x : JS} {ys : List JS}
    (h : mapM f [x] = .ok ys) : ∃ y, f x = .ok y ∧ ys = [y] := by
  unfold mapM at h
  cases hf : f x with
  | error e => simp [hf] at h
  | ok y =>
    simp [hf, mapM] at h
    exact ⟨y, rfl, h.symm⟩

/-- The `created_at` of a new entry after the back-fill loop is `now`. -/
theorem backfill_new_created {now : String} {e e2 : JS} (hb : backfill now e = .ok e2)
    (ho : isObject e = true) (hc : optProp e "created_at" = .str now)
    (hu : optProp e "updated_at" = .str now) : optProp e2 "created_at" = .str now := by
  by_cases ht : truthy (optProp e "created_at") = true
  · rw [(backfill_ok hb).2.1 ht, hc]
  · rw [(backfill_ok hb).2.2 ho (by simpa using ht), hu]
    simp [jsOr]

/-- C8. Save creates exactly one event for an unknown handle: when no event of the
stored document has the request's `event_handle` as `collection_handle`, the events of
the document Save writes are the stored events, unchanged and in order, followed by
one new event with `id = collection_handle = event_handle`, `name = event_name` when
one is supplied (truthy) and `event_handle` otherwise, `date` the first 10
characters of `now`, and `wines` holding exactly the one new entry, whose
`created_at` and `updated_at` are `now`; and Save does write a document when the
stored document and the request product have the shapes of the data model. -/
theorem save_creates_one_event (H : Host) (store eh en product : JS) (now : String)
    (heh : truthy eh = true)
    (hnone : ∀ e ∈ eventsOf store, strictEq (optProp e "collection_handle") eh = false)
    (hps : isPlain store = true) (hpeh : isPlain eh = true)
    (hpen : en = .undefined ∨ isPlain en = true) :
    (∀ doc, saveDocument H store eh en product now = .ok doc →
      ∃ entry,
        eventsOf doc = eventsOf store ++
          [.obj [("id", eh),
                 ("name", if truthy en = true then en else eh),
                 ("date", .str (String.mk (now.data.take 10))),
                 ("collection_handle", eh),
                 ("wines", .arr [entry])]]
        ∧ optProp entry "created_at" = .str now
        ∧ optProp entry "updated_at" = .str now
        ∧ optProp entry "product_id" = stringify (.num (requestPid H product)))
      ∧ (documentShaped store = true → productShaped product = true →
          ∃ doc, saveDocument H store eh en product now = .ok doc) := by
  refine ⟨?_, fun hs hp => saveDocument_total H store eh en product now hs hp⟩
  intro doc h
  unfold saveDocument at h
  cases hm : mergeNote H store eh en product now with
  | error e => simp [hm] at h
  | ok merged =>
    simp only [hm, Except.ok.injEq] at h
    subst h
    obtain ⟨es, ws2, hev, hu, hcase⟩ := mergeNote_ok heh hm
    have hes : eventsOf store = es := eventsOf_of_optProp hev
    have hidx : eventIndex store eh = es.length := by
      unfold eventIndex
      rw [hes]
      exact List.findIdx_eq_length_of_false (by rw [← hes]; exact hnone)
    have hse : storedEvent store eh = .undefined := by
      unfold storedEvent
      rw [hidx, hes]
      simp
    have hws : winesOf (storedEvent store eh) = [] := by rw [hse]; rfl
    simp only [hidx, Nat.lt_irrefl, if_false] at hcase
    rw [hws] at hu
    obtain ⟨e, he, hmap⟩ := upsertWine_ok hu
    simp only [List.length_nil, Nat.lt_irrefl, if_false, List.nil_append] at he hmap
    obtain ⟨e2, hb, hws2⟩ := mapM_singleton hmap
    subst hws2
    obtain ⟨nose, palate, note, _, _, _, hE⟩ := entryNew_ok he
    have hso : isObject store = true := isObject_of_optProp_arr hev
    have hev2 : optProp merged "events"
        = .arr (es ++ [(newEvent eh en now).set "wines" (.arr [e2])]) := by
      rw [hcase]; exact optProp_set_same_of_isObject hso _ _
    have hpes : ∀ x ∈ es, isPlain x = true := by
      rw [← hes]; exact plain_eventsOf (Or.inr hps)
    have hmapes : es.map stringify = es := by
      rw [← stringifyElems_eq_map]
      exact stringifyElems_plain es ((allPlain_iff es).mpr hpes)
    have hname : isPlain (jsOr en eh) = true := plain_jsOr hpen hpeh
    have hnew : stringify ((newEvent eh en now).set "wines" (.arr [e2]))
        = .obj [("id", eh), ("name", if truthy en = true then en else eh),
            ("date", .str (String.mk (now.data.take 10))), ("collection_handle", eh),
            ("wines", .arr [stringify e2])] := by
      simp only [newEvent, JS.set, setField, stringify]
      simp only [show ("id" = "wines") = False from by decide,
        show ("name" = "wines") = False from by decide,
        show ("date" = "wines") = False from by decide,
        show ("collection_handle" = "wines") = False from by decide, if_false, if_true]
      rw [stringifyFields_cons (isPlain_ne_undefined hpeh),
        stringifyFields_cons (isPlain_ne_undefined hname),
        stringifyFields_cons (by simp), stringifyFields_cons (isPlain_ne_undefined hpeh),
        stringifyFields_cons (by simp)]
      rw [stringify_plain eh hpeh, stringify_plain _ hname]
      simp [stringifyFields, stringify, stringifyElems, jsOr]
    refine ⟨stringify e2, ?_, ?_, ?_, ?_⟩
    · rw [eventsOf_stringify hev2, hes, List.map_append, hmapes]
      simp [hnew]
    · have hc : optProp e2 "created_at" = .str now :=
        backfill_new_created hb (by rw [hE]; rfl) (by rw [hE]; rfl) (by rw [hE]; rfl)
      rw [optProp_stringify (by decide) hc (by simp)]
      simp [stringify]
    · have hc : optProp e2 "updated_at" = .str now := by
        rw [(backfill_ok hb).1 "updated_at" (by decide), hE]; rfl
      rw [optProp_stringify (by decide) hc (by simp)]
      simp [stringify]
    · have hc : optProp e2 "product_id" = .num (requestPid H product) := by
        rw [(backfill_ok hb).1 "product_id" (by decide), hE]; rfl
      rw [optProp_stringify (by decide) hc (by simp)]

/-- Witness for C8: a first note is saved into the empty document. -/
theorem save_creates_one_event_witness :
    documentShaped emptyStore = true ∧ productShaped sampleFirst = true
      ∧ saveDocument sampleHost emptyStore (.str "spring-tasting") .undefined sampleFirst
          sampleNow = .ok sampleFirstSaved
      ∧ ∃ entry,
        eventsOf sampleFirstSaved = eventsOf emptyStore ++
          [.obj [("id", .str "spring-tasting"),
                 ("name", if truthy .undefined = true then .undefined else .str "spring-tasting"),
                 ("date", .str (String.mk (sampleNow.data.take 10))),
                 ("collection_handle", .str "spring-tasting"),
                 ("wines", .arr [entry])]]
        ∧ optProp entry "created_at" = .str sampleNow
        ∧ optProp entry "updated_at" = .str sampleNow
        ∧ optProp entry "product_id" = stringify (.num (requestPid sampleHost sampleFirst)) :=
  ⟨rfl, rfl, rfl, (save_creates_one_event sampleHost emptyStore (.str "spring-tasting") .undefined
    sampleFirst sampleNow rfl (fun _ he => nomatch he) rfl rfl (Or.inl rfl)).1
      sampleFirstSaved rfl⟩

/-! ## Save: uniqueness of `product_id` -/

theorem plain_backfill {now : String} {w w2 : JS} (hw : isPlain w = true)
    (h : backfill now w = .ok w2) : isPlain w2 = true := by
  unfold backfill at h
  cases hg : getProp w "created_at" with
  | error e => simp [hg] at h
  | ok c =>
    simp only [hg] at h
    by_cases ht : truthy c = true
    · simp only [ht, if_true, Except.ok.injEq] at h
      subst h
      exact hw
    · simp only [ht, Bool.false_eq_true, if_false] at h
      cases w with
      | obj kvs =>
        simp only [Except.ok.injEq] at h
        subst h
        simp only [isPlain] at hw ⊢
        exact fieldsPlain_setField hw _
          (plain_jsOr (plain_optProp (v := .obj kvs) (by simpa [isPlain] using hw) "updated_at")
            (b := .str now) rfl)
      | arr xs =>
        simp only [Except.ok.injEq] at h
        subst h
        exact hw
      | undefined => simp at h
      | null => simp at h
      | bool b => simp at h
      | num n => simp at h
      | str s => simp at h

theorem plain_entryNew {q : ℚ} {product e : JS} {now : String} (hp : isPlain product = true)
    (h : entryNew (.fin q) product now = .ok e) : isPlain e = true := by
  obtain ⟨nose, palate, note, h1, h2, h3, hE⟩ := entryNew_ok h
  have hn := plain_sliceTo (plain_jsOr (plain_optProp hp "nose") (b := .str "") rfl) h1
  have hpa := plain_sliceTo (plain_jsOr (plain_optProp hp "palate") (b := .str "") rfl) h2
  have hno := plain_sliceTo (plain_jsOr (plain_optProp hp "note") (b := .str "") rfl) h3
  have hh := plain_jsOr (plain_optProp hp "handle") (b := .str "") rfl
  have ht := plain_jsOr (plain_optProp hp "title") (b := .str "") rfl
  have hr : isPlain (if isNumber (optProp product "rating") = true then optProp product "rating"
      else .null) = true := by
    split
    · rename_i hnum
      rcases plain_optProp hp "rating" with hu | hpl
      · rw [hu] at hnum; simp [isNumber] at hnum
      · exact hpl
    · rfl
  rw [hE]
  simp [isPlain, fieldsPlain, hn, hpa, hno, hh, ht, hr]

theorem plain_entryUpdate {kvs : List (String × JS)} {product e : JS} {now : String}
    (hp : isPlain product = true) (hx : isPlain (.obj kvs) = true)
    (h : entryUpdate (.obj kvs) product now = .ok e) : isPlain e = true := by
  obtain ⟨nose, palate, note, h1, h2, h3, hE⟩ := entryUpdate_ok h
  have hxo : JS.obj kvs = .undefined ∨ isPlain (JS.obj kvs) = true := Or.inr hx
  have hn := plain_sliceTo (plain_jsCoalesce (plain_optProp hp "nose")
    (plain_jsCoalesce (plain_optProp_of hxo "nose") (b := .str "") rfl)) h1
  have hpa := plain_sliceTo (plain_jsCoalesce (plain_optProp hp "palate")
    (plain_jsCoalesce (plain_optProp_of hxo "palate") (b := .str "") rfl)) h2
  have hno := plain_sliceTo (plain_jsCoalesce (plain_optProp hp "note")
    (plain_jsCoalesce (plain_optProp_of hxo "note") (b := .str "") rfl)) h3
  have hh := plain_jsOr (plain_optProp hp "handle")
    (plain_jsOr (plain_optProp_of hxo "handle") (b := .str "") rfl)
  have ht := plain_jsOr (plain_optProp hp "title")
    (plain_jsOr (plain_optProp_of hxo "title") (b := .str "") rfl)
  have hc := plain_jsOr (plain_optProp_of hxo "created_at")
    (plain_jsOr (plain_optProp_of hxo "updated_at") (b := .str now) rfl)
  have hr := plain_rating hp hxo
  have hbase : fieldsPlain (spread (.obj kvs)) = true := by simpa [isPlain, spread] using hx
  rw [hE]
  simp only [isPlain]
  exact fieldsPlain_setField (fieldsPlain_setField (fieldsPlain_setField (fieldsPlain_setField
    (fieldsPlain_setField (fieldsPlain_setField (fieldsPlain_setField (fieldsPlain_setField
      hbase _ hh) _ ht) _ hr) _ hn) _ hpa) _ hno) _ hc) _ rfl

theorem plain_newEvent {eh en : JS} (now : String) (hpeh : isPlain eh = true)
    (hpen : en = .undefined ∨ isPlain en = true) : isPlain (newEvent eh en now) = true := by
  have hname := plain_jsOr hpen hpeh
  simp [newEvent, isPlain, fieldsPlain, hpeh, hname, allPlain]

theorem allPlain_set {xs : List JS} (h : allPlain xs = true) (i : Nat) {x : JS}
    (hx : isPlain x = true) : allPlain (xs.set i x) = true := by
  rw [allPlain_iff] at h ⊢
  intro y hy
  rcases List.mem_or_eq_of_mem_set hy with hm | rfl
  · exact h y hm
  · exact hx

theorem allPlain_append_one {xs : List JS} (h : allPlain xs = true) {x : JS}
    (hx : isPlain x = true) : allPlain (xs ++ [x]) = true := by
  rw [allPlain_iff] at h ⊢
  intro y hy
  rcases List.mem_append.mp hy with hm | hm
  · exact h y hm
  · rw [List.mem_singleton.mp hm]; exact hx

theorem allPlain_mapM_backfill {now : String} {xs ys : List JS} (h : allPlain xs = true)
    (hm : mapM (backfill now) xs = .ok ys) : allPlain ys = true := by
  rw [allPlain_iff] at h ⊢
  intro y hy
  obtain ⟨x, hx, hb⟩ := mapM_ok_mem _ _ hm y hy
  exact plain_backfill (h x hx) hb

theorem isObject_of_optProp_ne_undefined {v : JS} {k : String} (hk : k ≠ "length")
    (h : optProp v k ≠ .undefined) : isObject v = true := by
  cases v <;> simp_all [optProp, getProp, isObject]

theorem eq_of_strictEq_fin {x : JS} {q : ℚ} (h : strictEq x (.num (.fin q)) = true) :
    x = .num (.fin q) := by
  cases x <;> simp [strictEq] at h
  rename_i n
  cases n <;> simp_all [strictEq]

theorem ne_of_strictEq_fin {x : JS} {q : ℚ} (h : strictEq x (.num (.fin q)) = false) :
    x ≠ .num (.fin q) := by
  intro hx
  subst hx
  simp [strictEq] at h

/-- The upsert on finite key `q`: the array written is JSON data and lists the same
`product_id` values as before, followed by `q` when the key was not found. -/
theorem upsertWine_fin {H : Host} {ws ws2 : List JS} {product : JS} {now : String} {q : ℚ}
    (hpid : requestPid H product = .fin q) (hpp : isPlain product = true)
    (hpw : allPlain ws = true)
    (h : upsertWine H ws product now = .ok ws2) :
    allPlain ws2 = true
      ∧ (ws2.map (fun w => optProp w "product_id") = ws.map (fun w => optProp w "product_id")
        ∨ (ws2.map (fun w => optProp w "product_id")
              = ws.map (fun w => optProp w "product_id") ++ [.num (.fin q)]
            ∧ JS.num (.fin q) ∉ ws.map (fun w => optProp w "product_id"))) := by
  obtain ⟨e, he, hmap⟩ := upsertWine_ok h
  rw [hpid] at he hmap
  have hkeep := mapM_ok_map (fun w => optProp w "product_id")
    (fun x y hb => (backfill_ok hb).1 "product_id" (by decide)) _ _ hmap
  by_cases hlt : ws.findIdx (fun w => strictEq (optProp w "product_id") (.num (.fin q)))
      < ws.length
  · simp only [hlt, if_true] at he hmap hkeep
    have hq := List.findIdx_getElem (w := hlt)
    have hgd := getD_of_lt ws hlt
    rw [hgd] at he
    have hval := eq_of_strictEq_fin hq
    have hobj : isObject ws[ws.findIdx (fun w =>
        strictEq (optProp w "product_id") (.num (.fin q)))] = true :=
      isObject_of_optProp_ne_undefined (k := "product_id") (by decide) (by rw [hval]; simp)
    have hpx : isPlain ws[ws.findIdx (fun w =>
        strictEq (optProp w "product_id") (.num (.fin q)))] = true :=
      (allPlain_iff ws).mp hpw _ (List.getElem_mem _)
    generalize ws[ws.findIdx (fun w => strictEq (optProp w "product_id") (.num (.fin q)))]
      = ex at he hval hobj hpx hgd
    cases ex with
    | obj kvs =>
      have hpe := plain_entryUpdate hpp hpx he
      obtain ⟨nose, palate, note, _, _, _, hE⟩ := entryUpdate_ok he
      have hepid : optProp e "product_id" = .num (.fin q) := by
        rw [hE, ← hval]
        simp [optProp_obj, lookup_setField, spread]
      refine ⟨allPlain_mapM_backfill (allPlain_set hpw _ hpe) hmap, Or.inl ?_⟩
      rw [hkeep, List.map_set, hepid]
      apply List.ext_getElem?
      intro n
      by_cases hn : n = ws.findIdx (fun w => strictEq (optProp w "product_id") (.num (.fin q)))
      · subst hn
        rw [List.getElem?_set_self (by simpa using hlt)]
        simp only [List.getElem?_map, List.getElem?_eq_getElem hlt, Option.map_some']
        have := hgd
        rw [List.getD_eq_getElem?_getD, List.getElem?_eq_getElem hlt] at this
        simp only [Option.getD_some] at this
        rw [this, hval]
      · rw [List.getElem?_set_ne (Ne.symm hn)]
    | _ => simp [isObject] at hobj
  · simp only [hlt, if_false] at he hmap hkeep
    have hpe := plain_entryNew hpp he
    obtain ⟨nose, palate, note, _, _, _, hE⟩ := entryNew_ok he
    have hepid : optProp e "product_id" = .num (.fin q) := by rw [hE]; rfl
    have hall : ∀ x ∈ ws, strictEq (optProp x "product_id") (.num (.fin q)) = false :=
      List.findIdx_eq_length.mp
        (Nat.le_antisymm (List.findIdx_le_length _) (Nat.le_of_not_lt hlt))
    refine ⟨allPlain_mapM_backfill (allPlain_append_one hpw hpe) hmap, Or.inr ⟨?_, ?_⟩⟩
    · rw [hkeep, List.map_append]
      simp [hepid]
    · intro hmem
      obtain ⟨x, hx, hxe⟩ := List.mem_map.mp hmem
      exact ne_of_strictEq_fin (hall x hx) hxe

theorem nodup_storedEvent {store : JS} (h : UniqueProductIds store) (eh : JS) :
    ((winesOf (storedEvent store eh)).map (fun w => optProp w "product_id")).Nodup := by
  rcases getD_eq_default_or_mem (eventsOf store) (eventIndex store eh) with hu | hm
  · unfold storedEvent
    rw [hu]
    simp [winesOf, optProp, getProp]
  · exact h _ hm

/-- C3, amended. Save preserves `product_id` uniqueness when the request's
`product_id` converts to a finite number: if the `product_id` values inside each
event's wines of the stored document are pairwise distinct, they are pairwise
distinct again in the document Save writes; and Save does write a document when the
stored document and the request product have the shapes of the data model. -/
theorem save_keeps_product_ids_unique (H : Host) (store eh en product : JS)
    (now : String) (q : ℚ)
    (heh : truthy eh = true)
    (hpid : requestPid H product = .fin q)
    (huniq : UniqueProductIds store)
    (hps : isPlain store = true) (hpeh : isPlain eh = true)
    (hpen : en = .undefined ∨ isPlain en = true) (hpp : isPlain product = true) :
    (∀ doc, saveDocument H store eh en product now = .ok doc → UniqueProductIds doc)
      ∧ (documentShaped store = true → productShaped product = true →
          ∃ doc, saveDocument H store eh en product now = .ok doc) := by
  refine ⟨?_, fun hs hp => saveDocument_total H store eh en product now hs hp⟩
  intro doc h
  unfold saveDocument at h
  cases hm : mergeNote H store eh en product now with
  | error e => simp [hm] at h
  | ok merged =>
    simp only [hm, Except.ok.injEq] at h
    subst h
    obtain ⟨es, ws2, hev, hu, hcase⟩ := mergeNote_ok heh hm
    have hes : eventsOf store = es := eventsOf_of_optProp hev
    have hso : isObject store = true := isObject_of_optProp_arr hev
    have hpes : allPlain es = true := by
      rw [allPlain_iff, ← hes]; exact plain_eventsOf (Or.inr hps)
    have hpw : allPlain (winesOf (storedEvent store eh)) = true := by
      rw [allPlain_iff]; exact plain_winesOf (plain_storedEvent hps eh)
    obtain ⟨hpw2, hids⟩ := upsertWine_fin hpid hpp hpw hu
    have hnd : (ws2.map (fun w => optProp w "product_id")).Nodup := by
      have h0 := nodup_storedEvent huniq eh
      rcases hids with hsame | ⟨happ, hnot⟩
      · rw [hsame]; exact h0
      · rw [happ]
        exact List.Nodup.append h0 (List.nodup_singleton _)
          (by simpa [List.Disjoint] using hnot)
    have hfinal : ∀ (es2 : List JS) (evX : JS), isObject evX = true → isPlain evX = true →
        merged = store.set "events" (.arr es2) →
        (∀ e ∈ es2, e ∈ es ∨ e = evX.set "wines" (.arr ws2)) →
        allPlain es2 = true → UniqueProductIds (stringify merged) := by
      intro es2 evX hoX hpX hmer hmem hpes2
      have hpm : isPlain merged = true := by
        rw [hmer]
        exact isPlain_set hps _ (by simpa [isPlain] using hpes2)
      rw [stringify_plain merged hpm]
      intro e he
      have hev2 : eventsOf merged = es2 := by
        rw [hmer]
        exact eventsOf_of_optProp (optProp_set_same_of_isObject hso _ _)
      rw [hev2] at he
      rcases hmem e he with hin | heq
      · exact huniq e (by rw [hes]; exact hin)
      · subst heq
        unfold productIds
        rw [winesOf_of_optProp (optProp_set_same_of_isObject hoX _ _)]
        exact hnd
    by_cases hlt : eventIndex store eh < es.length
    · simp only [hlt, if_true] at hcase
      obtain ⟨hobj, hmer⟩ := hcase
      have hpX : isPlain (storedEvent store eh) = true := by
        rcases plain_storedEvent hps eh with hu2 | hp2
        · rw [hu2] at hobj; simp [isObject] at hobj
        · exact hp2
      refine hfinal _ _ hobj hpX hmer (fun e he => ?_) ?_
      · rcases List.mem_or_eq_of_mem_set he with hin | heq
        · exact Or.inl hin
        · exact Or.inr heq
      · exact allPlain_set hpes _ (isPlain_set hpX _ (by simpa [isPlain] using hpw2))
    · simp only [hlt, if_false] at hcase
      have hpX := plain_newEvent now hpeh hpen
      refine hfinal _ _ (isObject_newEvent eh en now) hpX hcase (fun e he => ?_) ?_
      · rcases List.mem_append.mp he with hin | hin
        · exact Or.inl hin
        · exact Or.inr (List.mem_singleton.mp hin)
      · exact allPlain_append_one hpes (isPlain_set hpX _ (by simpa [isPlain] using hpw2))

/-- Witness for C3, amended: product 42 of `sampleStore` is rated again. -/
theorem save_keeps_product_ids_unique_witness :
    documentShaped sampleStore = true ∧ productShaped sampleRating = true
      ∧ saveDocument sampleHost sampleStore (.str "spring-tasting") .undefined sampleRating
          sampleNow = .ok sampleRated
      ∧ UniqueProductIds sampleStore ∧ UniqueProductIds sampleRated :=
  have hu : UniqueProductIds sampleStore := by
    intro e he
    simp [sampleStore, eventsOf, optProp, getProp, lookup] at he
    subst he
    simp [productIds, winesOf, optProp, getProp, lookup]
  ⟨rfl, rfl, rfl, hu, (save_keeps_product_ids_unique sampleHost sampleStore (.str "spring-tasting")
    .undefined sampleRating sampleNow 42 rfl rfl hu rfl rfl (Or.inl rfl) rfl).1
      sampleRated rfl⟩

/-- Counterexample to C3 as stated: the request's `product_id` is the truthy string
"gid://shopify/Product/42", so validation accepts it, and `Number` turns it into
`NaN`, which matches no entry and is written as `null`. Saved into the empty store
and then once more into the document so written, it leaves two entries with
`product_id` `null` in an event that held one. -/
theorem save_unique_counterexample :
    truthy (optProp sampleGid "product_id") = true
      ∧ saveDocument sampleHost emptyStore (.str "spring-tasting") .undefined sampleGid sampleNow
          = .ok sampleGidSaved
      ∧ UniqueProductIds sampleGidSaved
      ∧ saveDocument sampleHost sampleGidSaved (.str "spring-tasting") .undefined sampleGid
          sampleNow = .ok sampleGidTwice
      ∧ ¬ UniqueProductIds sampleGidTwice := by
  refine ⟨rfl, rfl, ?_, rfl, ?_⟩
  · intro e he
    simp [sampleGidSaved, eventsOf, optProp, getProp, lookup] at he
    subst he
    simp [productIds, winesOf, optProp, getProp, lookup]
  · intro hu
    have := hu (.obj [("id", .str "spring-tasting"), ("name", .str "spring-tasting"),
          ("date", .str "2024-06-01"), ("collection_handle", .str "spring-tasting"),
          ("wines", .arr [sampleGidEntry, sampleGidEntry])])
      (by simp [sampleGidTwice, eventsOf, optProp, getProp, lookup])
    simp [productIds, winesOf, optProp, getProp, lookup] at this

/-! ## Delete: what the filter does -/

theorem findIndexM_located {p : JS → Except Thrown Bool} (pre : List JS) (x : JS)
    (post : List JS) (hpre : ∀ y ∈ pre, p y = .ok false) (hx : p x = .ok true) :
    findIndexM p (pre ++ x :: post) = .ok (some pre.length) := by
  induction pre with
  | nil => simp [findIndexM, hx]
  | cons y ys ih =>
    have hy := hpre y (by simp)
    have := ih (fun z hz => hpre z (by simp [hz]))
    simp [findIndexM, hy, this]

theorem dropMatching_eq_filter {H : Host} {pid handle : JS} {m : JS → Bool} :
    ∀ ws : List JS, (∀ w ∈ ws, wineMatches H pid handle w = .ok (m w)) →
      dropMatching H pid handle ws = .ok (ws.filter (fun w => !m w)) := by
  intro ws
  induction ws with
  | nil => intro _; simp [dropMatching]
  | cons w ws ih =>
    intro hall
    have hw := hall w (by simp)
    have hrest := ih (fun z hz => hall z (by simp [hz]))
    cases hm : m w <;> simp [dropMatching, hw, hrest, hm, List.filter_cons]

theorem length_filter_not_add (ws : List JS) (m : JS → Bool) :
    (ws.filter (fun w => !m w)).length + (ws.filter m).length = ws.length := by
  induction ws with
  | nil => simp
  | cons w ws ih =>
    cases hm : m w <;> simp [List.filter_cons, hm] <;> omega

theorem convertible_jsOr_zero {v : JS} (hc : convertible v = true) :
    convertible (jsOr v (JS.int 0)) = true := by
  unfold jsOr
  split
  · exact hc
  · rfl

/-- The key `Number(v || 0) || null` of a value that has a primitive value. -/
theorem pidKey_ok (H : Host) {v : JS} (hc : convertible v = true) :
    pidKey H v = .ok (jsOr (.num (numericValue H (jsOr v (JS.int 0)))) .null) := by
  unfold pidKey
  rw [toNumber_of_convertible H (convertible_jsOr_zero hc)]

theorem keyOf_eq (N : JNum) :
    jsOr (.num N) .null = if truthy (.num N) = true then .num N else .null := by
  simp [jsOr]

theorem convertible_of_numberOrNullish {v : JS} (h : numberOrNullish v = true) :
    convertible v = true := by
  cases v <;> first | rfl | simp [numberOrNullish, isNumber, nullish] at h

theorem strictEq_falsy_truthy {a b : JS} (ha : truthy a = false) (hb : truthy b = true) :
    strictEq a b = false := by
  cases h : strictEq a b with
  | false => rfl
  | true => rw [truthy_of_strictEq h hb] at ha; cases ha

/-- On an entry whose `product_id` is a number or missing, the filter callback
decides `entryMatches`. -/
theorem wineMatches_eq {H : Host} {product w : JS} (hw : nullish w = false)
    (hty : numberOrNullish (optProp w "product_id") = true) :
    wineMatches H
        (jsOr (.num (numericValue H (jsOr (optProp product "product_id") (JS.int 0)))) .null)
        (handleKey (optProp product "handle")) w
      = .ok (entryMatches H product w) := by
  unfold wineMatches
  rw [getProp_of_not_nullish "product_id" hw]
  simp only [pidKey_ok H (convertible_of_numberOrNullish hty), Except.ok.injEq]
  have hpid : (truthy
          (jsOr (.num (numericValue H (jsOr (optProp product "product_id") (JS.int 0)))) .null)
        && truthy (jsOr (.num (numericValue H (jsOr (optProp w "product_id") (JS.int 0)))) .null)
        && strictEq
          (jsOr (.num (numericValue H (jsOr (optProp w "product_id") (JS.int 0)))) .null)
          (jsOr (.num (numericValue H (jsOr (optProp product "product_id") (JS.int 0)))) .null))
      = (truthy (.num (deletePid H product))
        && strictEq (optProp w "product_id") (.num (deletePid H product))) := by
    unfold deletePid
    generalize numericValue H (jsOr (optProp product "product_id") (JS.int 0)) = N
    rw [keyOf_eq N]
    by_cases hN : truthy (.num N) = true
    · simp only [hN, if_true, Bool.true_and]
      rw [keyOf_eq (numericValue H (jsOr (optProp w "product_id") (JS.int 0)))]
      cases hwp : optProp w "product_id" with
      | num m =>
        by_cases hm : truthy (.num m) = true
        · simp [jsOr, hm, numericValue]
        · have hm2 : truthy (.num m) = false := by simpa using hm
          have hz : truthy (JS.num (numericValue H (JS.int 0))) = false := by
            simp [JS.int, numericValue, truthy]
          simp only [jsOr, hm, if_false, hz, Bool.false_eq_true]
          simp [truthy, strictEq_falsy_truthy hm2 hN]
      | undefined => simp [jsOr, truthy, numericValue, JS.int, strictEq]
      | null => simp [jsOr, truthy, numericValue, JS.int, strictEq]
      | bool b => rw [hwp] at hty; simp [numberOrNullish, isNumber, nullish] at hty
      | str s => rw [hwp] at hty; simp [numberOrNullish, isNumber, nullish] at hty
      | arr xs => rw [hwp] at hty; simp [numberOrNullish, isNumber, nullish] at hty
      | obj kvs => rw [hwp] at hty; simp [numberOrNullish, isNumber, nullish] at hty
    · have hN2 : truthy (.num N) = false := by simpa using hN
      simp only [hN2, Bool.false_eq_true, if_false, Bool.false_and]
      rfl
  have hh : (truthy (handleKey (optProp product "handle"))
        && truthy (handleKey (optProp w "handle"))
        && strictEq (handleKey (optProp w "handle")) (handleKey (optProp product "handle")))
      = (truthy (optProp product "handle")
        && strictEq (optProp w "handle") (optProp product "handle")) := by
    unfold handleKey jsOr
    by_cases hp : truthy (optProp product "handle") = true
    · simp only [hp, if_true, Bool.true_and]
      by_cases hwh : truthy (optProp w "handle") = true
      · simp [hwh]
      · have hwh2 : truthy (optProp w "handle") = false := by simpa using hwh
        simp only [hwh2, Bool.false_eq_true, if_false]
        rw [strictEq_falsy_truthy hwh2 hp]
        rfl
    · have hp2 : truthy (optProp product "handle") = false := by simpa using hp
      simp only [hp2, Bool.false_eq_true, if_false, Bool.false_and]
      rfl
  unfold entryMatches
  rw [hpid, hh]

theorem eventMatches_eq {eh en e : JS} (he : nullish e = false) :
    eventMatches eh en e = .ok (eventLocated eh en e) := by
  unfold eventMatches eventLocated
  by_cases h1 : truthy eh = true
  · simp only [h1, if_true]
    rw [getProp_of_not_nullish "handle" he]
  · simp only [h1, Bool.false_eq_true, if_false]
    by_cases h2 : truthy en = true
    · simp only [h2, if_true, Bool.true_and]
      rw [getProp_of_not_nullish "name" he]
    · simp [h2]

theorem isObject_of_eventLocated {eh en e : JS} (h : eventLocated eh en e = true) :
    isObject e = true := by
  unfold eventLocated at h
  by_cases h1 : truthy eh = true
  · simp only [h1, if_true] at h
    exact isObject_of_optProp_truthy (k := "handle") (by decide) (truthy_of_strictEq h h1)
  · simp only [h1, Bool.false_eq_true, if_false, Bool.and_eq_true] at h
    exact isObject_of_optProp_truthy (k := "name") (by decide) (truthy_of_strictEq h.2 h.1)

theorem not_nullish_of_isObject {v : JS} (h : isObject v = true) : nullish v = false := by
  cases v <;> simp_all [isObject, nullish]

theorem set_at_length (pre : List JS) (x y : JS) (post : List JS) :
    (pre ++ x :: post).set pre.length y = pre ++ y :: post := by
  induction pre with
  | nil => rfl
  | cons a as ih => simp [List.set, ih]

theorem getD_at_length (pre : List JS) (x : JS) (post : List JS) :
    (pre ++ x :: post).getD pre.length .undefined = x := by
  induction pre with
  | nil => rfl
  | cons a as ih => simpa [List.getD] using ih

/-- Delete on a located event whose entries carry numeric product ids: the filter
drops exactly the entries that match the product of the request. -/
theorem removeWine_located {H : Host} {stored eh en product ev : JS} {pre post : List JS}
    (hes : eventsOf stored = pre ++ ev :: post)
    (hpre : ∀ e ∈ pre, nullish e = false ∧ eventLocated eh en e = false)
    (hloc : eventLocated eh en ev = true)
    (hw : ∀ w ∈ winesOf ev,
      nullish w = false ∧ numberOrNullish (optProp w "product_id") = true)
    (hprod : nullish product = false)
    (hconv : convertible (optProp product "product_id") = true) :
    removeWine H stored eh en product
      = .ok (.done (withoutMatching H stored pre ev post product)
          ((winesOf ev).filter (entryMatches H product)).length) := by
  have hobj := isObject_of_eventLocated hloc
  have hfind : findIndexM (eventMatches eh en) (eventsOf stored) = .ok (some pre.length) := by
    rw [hes]
    apply findIndexM_located
    · intro y hy
      rw [eventMatches_eq (hpre y hy).1, (hpre y hy).2]
    · rw [eventMatches_eq (not_nullish_of_isObject hobj), hloc]
  have hdrop : dropMatching H
      (jsOr (.num (numericValue H (jsOr (optProp product "product_id") (JS.int 0)))) .null)
      (handleKey (optProp product "handle")) (winesOf ev)
      = .ok ((winesOf ev).filter (fun w => !entryMatches H product w)) :=
    dropMatching_eq_filter _ (fun w hwm => wineMatches_eq (hw w hwm).1 (hw w hwm).2)
  have hcount : (winesOf ev).length
      - ((winesOf ev).filter (fun w => !entryMatches H product w)).length
      = ((winesOf ev).filter (entryMatches H product)).length := by
    have := length_filter_not_add (winesOf ev) (entryMatches H product)
    omega
  unfold removeWine
  simp only [hfind]
  rw [hes, getD_at_length]
  rw [getProp_of_not_nullish "wines" (not_nullish_of_isObject hobj),
    getProp_of_not_nullish "product_id" hprod]
  simp only [pidKey_ok H hconv, hdrop, hcount]
  rw [set_at_length]
  rfl

theorem plain_withoutMatching {H : Host} {stored ev product : JS} {pre post : List JS}
    (hplain : isPlain stored = true) (hes : eventsOf stored = pre ++ ev :: post) :
    isPlain (withoutMatching H stored pre ev post product) = true := by
  have hall := plain_eventsOf (Or.inr hplain)
  rw [hes] at hall
  have hev : isPlain ev = true := hall ev (by simp)
  have hwines : allPlain ((winesOf ev).filter (fun w => !entryMatches H product w)) = true := by
    rw [allPlain_iff]
    intro w hwm
    exact plain_winesOf (Or.inr hev) w (List.mem_of_mem_filter hwm)
  unfold withoutMatching
  refine isPlain_set hplain _ ?_
  simp only [isPlain]
  rw [allPlain_iff]
  intro e he
  rcases List.mem_append.mp he with hin | hin
  · exact hall e (by simp [hin])
  · rcases List.mem_cons.mp hin with rfl | hin2
    · exact isPlain_set hev _ (by simpa [isPlain] using hwines)
    · exact hall e (by simp [hin2])

/-- The handler past the read: the reply and the calls when the event is located
and the write succeeds. -/
theorem delete_removes_matching_core (H : Host) (env : DeleteEnv) (up : DeleteUpstream)
    (body : Option JS) (f : DeleteFields) (domain metafield stored ev : JS)
    (pre post : List JS) (upd : FetchResponse)
    (hload : deleteLoad env up body = .metafield f domain metafield)
    (hstored : deleteValue H metafield = stored)
    (hplain : isPlain stored = true)
    (hes : eventsOf stored = pre ++ ev :: post)
    (hpre : ∀ e ∈ pre, nullish e = false ∧ eventLocated f.event_handle f.event_name e = false)
    (hloc : eventLocated f.event_handle f.event_name ev = true)
    (hw : ∀ w ∈ winesOf ev,
      nullish w = false ∧ numberOrNullish (optProp w "product_id") = true)
    (hprod : nullish f.product = false)
    (hconv : convertible (optProp f.product "product_id") = true)
    (hput : up.putMetafield domain (optProp metafield "id")
      (withoutMatching H stored pre ev post f.product) = .ok upd)
    (hok : upd.ok = true) :
    deletePOST H env up body
        = (.removed ((winesOf ev).filter (entryMatches H f.product)).length,
           [.getMetafields domain f.customer_id,
            .putMetafield domain (optProp metafield "id")
              (withoutMatching H stored pre ev post f.product)]) := by
  have hrm := removeWine_located (H := H) hes hpre hloc hw hprod hconv
  have hstr := stringify_plain _ (@plain_withoutMatching H stored ev f.product pre post hplain hes)
  unfold deletePOST
  simp only [hload, hstored, hrm, hstr, hput, hok, if_true]

/-- C6. Delete removes exactly the matching entries and nothing else: when the handler
has read the metafield and located the event in the stored document, it writes the
stored document with, in the located event, the stored wines in their order minus the
entries whose `product_id` equals the supplied (non-zero) product id or whose `handle`
equals the supplied (non-empty) handle; the events keep their number and order, and
the reply is `{ok: true, removed: n}` with `n` the number of entries dropped. -/
theorem delete_removes_matching (H : Host) (env : DeleteEnv) (up : DeleteUpstream)
    (body : Option JS) (f : DeleteFields) (domain metafield stored ev : JS)
    (pre post : List JS) (upd : FetchResponse)
    (hload : deleteLoad env up body = .metafield f domain metafield)
    (hstored : deleteValue H metafield = stored)
    (hplain : isPlain stored = true)
    (hes : eventsOf stored = pre ++ ev :: post)
    (hpre : ∀ e ∈ pre, nullish e = false ∧ eventLocated f.event_handle f.event_name e = false)
    (hloc : eventLocated f.event_handle f.event_name ev = true)
    (hw : ∀ w ∈ winesOf ev,
      nullish w = false ∧ numberOrNullish (optProp w "product_id") = true)
    (hprod : nullish f.product = false)
    (hconv : convertible (optProp f.product "product_id") = true)
    (hput : up.putMetafield domain (optProp metafield "id")
      (withoutMatching H stored pre ev post f.product) = .ok upd)
    (hok : upd.ok = true) :
    deletePOST H env up body
        = (.removed ((winesOf ev).filter (entryMatches H f.product)).length,
           [.getMetafields domain f.customer_id,
            .putMetafield domain (optProp metafield "id")
              (withoutMatching H stored pre ev post f.product)])
      ∧ eventsOf (withoutMatching H stored pre ev post f.product)
        = pre ++ ev.set "wines"
            (.arr ((winesOf ev).filter (fun w => !entryMatches H f.product w))) :: post
      ∧ winesOf (ev.set "wines"
            (.arr ((winesOf ev).filter (fun w => !entryMatches H f.product w))))
        = (winesOf ev).filter (fun w => !entryMatches H f.product w) := by
  have hobj := isObject_of_eventLocated hloc
  have hso : isObject stored = true := by
    cases hs : optProp stored "events" with
    | arr es => exact isObject_of_optProp_arr hs
    | _ => simp [eventsOf, hs] at hes
  refine ⟨?_, ?_, ?_⟩
  · exact delete_removes_matching_core H env up body f domain metafield stored ev pre post upd
      hload hstored hplain hes hpre hloc hw hprod hconv hput hok
  · unfold withoutMatching
    exact eventsOf_of_optProp (optProp_set_same_of_isObject hso _ _)
  · exact winesOf_of_optProp (optProp_set_same_of_isObject hobj _ _)

set_option maxRecDepth 20000 in
/-- Witness for C6: product 42 is deleted from the event of `sampleStore`, named by
its name; the value of the metafield is the JSON text of `sampleStore`. -/
theorem delete_removes_matching_witness :
    deletePOST sampleHost sampleEnv
        (sampleDeleteUpstream (.arr [sampleMetafield (.str sampleStoreText)]))
        (some sampleDeleteByName)
      = (.removed 1,
         [.getMetafields (.str "famelia-wine.myshopify.com") (JS.int 7001),
          .putMetafield (.str "famelia-wine.myshopify.com") (JS.int 9001) sampleEmptied]) :=
  (delete_removes_matching sampleHost sampleEnv
    (sampleDeleteUpstream (.arr [sampleMetafield (.str sampleStoreText)]))
    (some sampleDeleteByName) (deleteFields sampleDeleteByName)
    (.str "famelia-wine.myshopify.com") (sampleMetafield (.str sampleStoreText)) sampleStore
    sampleEvent [] [] { ok := true, text := "", json := .ok (.obj []) }
    rfl rfl rfl rfl (fun _ he => nomatch he) rfl
    (fun w hw => by
      have hw2 : w = sampleEntry := by simpa [sampleEvent, winesOf, optProp, getProp, lookup] using hw
      subst hw2
      exact ⟨rfl, rfl⟩)
    rfl rfl rfl rfl).1

theorem setField_same {k : String} {v : JS} :
    ∀ kvs : List (String × JS), lookup k kvs = some v → setField k v kvs = kvs := by
  intro kvs
  induction kvs with
  | nil => intro h; simp [lookup] at h
  | cons p r ih =>
    intro h
    obtain ⟨k2, v2⟩ := p
    by_cases hk : k2 = k
    · simp [lookup, hk] at h
      simp [setField, hk, h]
    · simp [lookup, hk] at h
      simp [setField, hk, ih h]

theorem set_same {o v : JS} {k : String} (ho : isObject o = true) (h : optProp o k = v)
    (hv : v ≠ .undefined) : o.set k v = o := by
  cases o with
  | obj kvs =>
    cases hl : lookup k kvs with
    | none => simp [optProp_obj, hl] at h; exact absurd h.symm hv
    | some x =>
      simp [optProp_obj, hl] at h
      subst h
      simp [JS.set, setField_same kvs hl]
  | _ => simp [isObject] at ho

theorem entryMatches_false {H : Host} {product w : JS}
    (h1 : strictEq (optProp w "product_id") (.num (deletePid H product)) = false)
    (h2 : strictEq (optProp w "handle") (optProp product "handle") = false) :
    entryMatches H product w = false := by
  simp [entryMatches, h1, h2]

/-- C7, amended. Delete of an unknown product is a no-op: when the event is located
and neither the supplied product id equals the `product_id` of an entry of its wines
nor the supplied handle equals the `handle` of one, Delete writes the stored document
back unchanged and answers `{ok: true, removed: 0}`. -/
theorem delete_unknown_product_noop (H : Host) (env : DeleteEnv) (up : DeleteUpstream)
    (body : Option JS) (f : DeleteFields) (domain metafield stored ev : JS)
    (pre post ws : List JS) (upd : FetchResponse)
    (hload : deleteLoad env up body = .metafield f domain metafield)
    (hstored : deleteValue H metafield = stored)
    (hplain : isPlain stored = true)
    (hes : eventsOf stored = pre ++ ev :: post)
    (hpre : ∀ e ∈ pre, nullish e = false ∧ eventLocated f.event_handle f.event_name e = false)
    (hloc : eventLocated f.event_handle f.event_name ev = true)
    (hwines : optProp ev "wines" = .arr ws)
    (hw : ∀ w ∈ ws, nullish w = false ∧ numberOrNullish (optProp w "product_id") = true)
    (hprod : nullish f.product = false)
    (hconv : convertible (optProp f.product "product_id") = true)
    (hnopid : ∀ w ∈ ws,
      strictEq (optProp w "product_id") (.num (deletePid H f.product)) = false)
    (hnohandle : ∀ w ∈ ws,
      strictEq (optProp w "handle") (optProp f.product "handle") = false)
    (hput : up.putMetafield domain (optProp metafield "id") stored = .ok upd)
    (hok : upd.ok = true) :
    deletePOST H env up body
      = (.removed 0,
         [.getMetafields domain f.customer_id,
          .putMetafield domain (optProp metafield "id") stored]) := by
  have hwo : winesOf ev = ws := winesOf_of_optProp hwines
  have hobj := isObject_of_eventLocated hloc
  have hnomatch : ∀ w ∈ ws, entryMatches H f.product w = false :=
    fun w hwm => entryMatches_false (hnopid w hwm) (hnohandle w hwm)
  have hkeep : ws.filter (fun w => !entryMatches H f.product w) = ws :=
    List.filter_eq_self.mpr (fun w hwm => by simp [hnomatch w hwm])
  have hdrop : ws.filter (entryMatches H f.product) = [] :=
    List.filter_eq_nil_iff.mpr (fun w hwm => by simp [hnomatch w hwm])
  have hsame : withoutMatching H stored pre ev post f.product = stored := by
    unfold withoutMatching
    rw [hwo, hkeep, set_same hobj hwines (by simp), ← hes]
    cases hs : optProp stored "events" with
    | arr es =>
      have : eventsOf stored = es := eventsOf_of_optProp hs
      rw [this]
      exact set_same (isObject_of_optProp_arr hs) hs (by simp)
    | _ => simp [eventsOf, hs] at hes
  have key := (delete_removes_matching_core H env up body f domain metafield stored ev pre post
    upd hload hstored hplain hes hpre hloc (by rw [hwo]; exact hw) hprod hconv
    (by rw [hsame]; exact hput) hok)
  rw [hsame, hwo, hdrop] at key
  exact key

set_option maxRecDepth 20000 in
/-- Witness for C7, amended: product 99, which the event of `sampleStore` does not
hold, is deleted with no handle supplied. -/
theorem delete_unknown_product_noop_witness :
    deletePOST sampleHost sampleEnv
        (sampleDeleteUpstream (.arr [sampleMetafield (.str sampleStoreText)]))
        (some sampleDeleteUnknown)
      = (.removed 0,
         [.getMetafields (.str "famelia-wine.myshopify.com") (JS.int 7001),
          .putMetafield (.str "famelia-wine.myshopify.com") (JS.int 9001) sampleStore]) :=
  delete_unknown_product_noop sampleHost sampleEnv
    (sampleDeleteUpstream (.arr [sampleMetafield (.str sampleStoreText)]))
    (some sampleDeleteUnknown) (deleteFields sampleDeleteUnknown)
    (.str "famelia-wine.myshopify.com") (sampleMetafield (.str sampleStoreText)) sampleStore
    sampleEvent [] [] [sampleEntry] { ok := true, text := "", json := .ok (.obj []) }
    rfl rfl rfl rfl (fun _ he => nomatch he) rfl rfl
    (fun w hw => by
      rw [List.mem_singleton.mp hw]
      exact ⟨rfl, rfl⟩)
    rfl rfl
    (fun w hw => by
      rw [List.mem_singleton.mp hw]
      rfl)
    (fun w hw => by
      rw [List.mem_singleton.mp hw]
      rfl)
    rfl rfl

set_option maxRecDepth 20000 in
/-- Counterexample to C7 as stated: the request's product id 99 equals the
`product_id` of no entry of the located event, yet the request also supplies the
handle "merlot-2019" of the entry with `product_id` 42; Delete removes that entry,
answers `removed: 1` and writes the event with no wines. -/
theorem delete_unknown_product_counterexample :
    (∀ w ∈ winesOf sampleEvent,
        strictEq (optProp w "product_id")
          (optProp (deleteFields sampleDeleteByHandle).product "product_id") = false)
      ∧ deletePOST sampleHost sampleEnv
          (sampleDeleteUpstream (.arr [sampleMetafield (.str sampleStoreText)]))
          (some sampleDeleteByHandle)
        = (.removed 1,
           [.getMetafields (.str "famelia-wine.myshopify.com") (JS.int 7001),
            .putMetafield (.str "famelia-wine.myshopify.com") (JS.int 9001) sampleEmptied]) := by
  refine ⟨?_, rfl⟩
  intro w hw
  have hw2 : w = sampleEntry := by
    simpa [sampleEvent, winesOf, optProp, getProp, lookup] using hw
  subst hw2
  rfl

theorem truthy_jsOr_right (a : JS) {b : JS} (hb : truthy b = true) :
    truthy (jsOr a b) = true := by
  unfold jsOr
  split <;> assumption

/-- C9. Delete on a customer with no metafield writes nothing: when the request has
`shop` and `customer_id`, the deployment has its access token, and the read of the
metafields succeeds with a body whose `metafields` is missing or an empty list,
Delete answers `{ok: true, empty: true}` and its only upstream call is the read. -/
theorem delete_without_metafield (H : Host) (env : DeleteEnv) (up : DeleteUpstream)
    (b metaList : JS) (resp : FetchResponse) (token : String)
    (hshop : truthy (deleteFields b).shop = true)
    (hcid : truthy (deleteFields b).customer_id = true)
    (htoken : env.adminToken = some token) (hne : token ≠ "")
    (hget : up.getMetafields (jsOr (envValue env.storeDomain) (deleteFields b).shop)
      (deleteFields b).customer_id = .ok resp)
    (hok : resp.ok = true) (hjson : resp.json = .ok metaList)
    (hnone : getProp metaList "metafields" = .ok .undefined
      ∨ getProp metaList "metafields" = .ok (.arr [])) :
    deletePOST H env up (some b)
        = (.empty,
           [.getMetafields (jsOr (envValue env.storeDomain) (deleteFields b).shop)
              (deleteFields b).customer_id])
      ∧ DeleteReply.empty.body = some (.obj [("ok", .bool true), ("empty", .bool true)])
      ∧ DeleteReply.empty.status = 200 := by
  have hdom := truthy_jsOr_right (envValue env.storeDomain) hshop
  have htok : truthy (envValue env.adminToken) = true := by
    simp [htoken, envValue, truthy, hne]
  have hmf1 : truthy (jsOr (if truthy JS.undefined = true then first .undefined
      else .undefined) .null) = false := rfl
  have hmf2 : truthy (jsOr (if truthy (JS.arr []) = true then first (.arr [])
      else .arr []) .null) = false := rfl
  refine ⟨?_, rfl, rfl⟩
  unfold deletePOST deleteLoad
  rcases hnone with hm | hm
  · simp only [hshop, hcid, hdom, htok, hget, hok, hjson, hm, Bool.and_self, if_true, hmf1,
      Bool.false_eq_true, if_false]
  · simp only [hshop, hcid, hdom, htok, hget, hok, hjson, hm, Bool.and_self, if_true, hmf2,
      Bool.false_eq_true, if_false]

/-- Witness for C9: the store returns an empty list of metafields. -/
theorem delete_without_metafield_witness :
    deletePOST sampleHost sampleEnv (sampleDeleteUpstream (.arr [])) (some sampleDeleteByName)
        = (.empty,
           [.getMetafields (.str "famelia-wine.myshopify.com") (JS.int 7001)]) :=
  (delete_without_metafield sampleHost sampleEnv (sampleDeleteUpstream (.arr []))
    sampleDeleteByName (.obj [("metafields", .arr [])])
    { ok := true, text := "", json := .ok (.obj [("metafields", .arr [])]) } "shpat_sample"
    rfl rfl rfl (by decide) rfl rfl rfl (Or.inr rfl)).1

set_option maxRecDepth 20000 in
/-- C1, at the failing input. Save of product 42 for the event handle
"spring-tasting" into the empty store writes `sampleFirstSaved`, whose event carries
the handle as `id` and `collection_handle`. Delete with the same event handle and
product, reading the JSON text of that document, looks for an event whose `handle`
is the handle, finds none, answers `{ok: true, notFound: "event"}` and writes nothing. -/
theorem delete_misses_saved_event :
    saveDocument sampleHost emptyStore (.str "spring-tasting") .undefined sampleFirst sampleNow
        = .ok sampleFirstSaved
      ∧ sampleHost.jsonParse sampleFirstText = some sampleFirstSaved
      ∧ optProp sampleFirst "product_id" = optProp (deleteFields sampleDeleteBody).product "product_id"
      ∧ (deleteFields sampleDeleteBody).event_handle = .str "spring-tasting"
      ∧ deletePOST sampleHost sampleEnv
          (sampleDeleteUpstream (.arr [sampleMetafield (.str sampleFirstText)]))
          (some sampleDeleteBody)
        = (.notFoundEvent,
           [.getMetafields (.str "famelia-wine.myshopify.com") (JS.int 7001)])
      ∧ DeleteReply.notFoundEvent.body
        = some (.obj [("ok", .bool true), ("notFound", .str "event")]) :=
  ⟨rfl, rfl, rfl, rfl, rfl, rfl⟩

/-! ## Save: a stored value of the wrong shape -/

theorem mergeNote_no_events {H : Host} {v eh en product : JS} {now : String}
    (h : isArray (optProp v "events") = false) :
    mergeNote H v eh en product now = .error .typeError := by
  unfold mergeNote
  by_cases hn : nullish v = true
  · cases v <;> simp_all [nullish, getProp]
  · rw [getProp_of_not_nullish "events" (by simpa using hn)]
    cases hv : optProp v "events" <;> simp_all [isArray, asArray]

/-- C10. Save does not recover from a well-formed but wrongly shaped stored value:
for an accepted and verified request, when the value of the metafield parses as JSON
to a value with no `events` array, Save answers with the 500 error envelope and its
only upstream calls are the two reads (no `metafieldsSet`); when the value fails to
parse, the handler goes on with the empty document `{events: []}` as the store. -/
theorem save_rejects_wrong_shape (H : Host) (up : SaveUpstream) (origin : String)
    (b d1 d2 : JS) (text now : String)
    (horigin : origin ∈ allowedOrigins)
    (hacc : accepted (saveFields b) = true)
    (hq1 : up.customerQuery (saveFields b).customer_id = .ok d1)
    (hver : verified H d1 (saveFields b).customer_email = some true)
    (hq2 : up.metafieldQuery (saveFields b).customer_id = .ok d2)
    (hvalue : optProp (optProp (optProp d2 "customer") "metafield") "value" = .str text)
    (htext : text ≠ "") :
    (∀ v, H.jsonParse text = some v → isArray (optProp v "events") = false →
        savePOST H up origin (some b) now
            = (.serverError .typeError,
               [.customerQuery (saveFields b).customer_id,
                .metafieldQuery (saveFields b).customer_id])
          ∧ (savePOST H up origin (some b) now).1.status = 500
          ∧ (savePOST H up origin (some b) now).1.okFlag = false)
      ∧ (H.jsonParse text = none →
          saveLoad H up origin (some b) = .store (saveFields b) emptyStore
          ∧ savePOST H up origin (some b) now
            = (match saveDocument H emptyStore (saveFields b).event_handle
                  (saveFields b).event_name (saveFields b).product now with
               | .error e =>
                 (.serverError e,
                   [.customerQuery (saveFields b).customer_id,
                    .metafieldQuery (saveFields b).customer_id])
               | .ok doc =>
                 (saveWrite up (saveFields b).customer_id doc,
                   [.customerQuery (saveFields b).customer_id,
                    .metafieldQuery (saveFields b).customer_id,
                    .metafieldsSet (saveFields b).customer_id doc]))) := by
  have htr : truthy (.str text) = true := by simp [truthy, htext]
  have hload : saveLoad H up origin (some b)
      = .store (saveFields b) ((H.jsonParse text).getD emptyStore) := by
    unfold saveLoad readStore
    simp only [horigin, if_true, hacc, hq1, hver, hq2, hvalue, htr]
  refine ⟨?_, ?_⟩
  · intro v hv harr
    have hpost : savePOST H up origin (some b) now
        = (.serverError .typeError,
           [.customerQuery (saveFields b).customer_id,
            .metafieldQuery (saveFields b).customer_id]) := by
      unfold savePOST
      rw [hload, hv]
      simp only [Option.getD_some, saveDocument, mergeNote_no_events harr]
    rw [hpost]
    exact ⟨rfl, rfl, rfl⟩
  · intro hnone
    rw [hnone] at hload
    exact ⟨hload, savePOST_loaded now hload⟩

/-- Witness for C10: the metafield holds the JSON text of the empty object. -/
theorem save_rejects_wrong_shape_witness :
    sampleHost.jsonParse "\x7b\x7d" = some (.obj [])
      ∧ savePOST sampleHost (sampleSaveUpstream (.str "\x7b\x7d")) "https://famelia.com.au"
          (some sampleSaveBody) sampleNow
        = (.serverError .typeError,
           [.customerQuery (JS.int 7001), .metafieldQuery (JS.int 7001)]) :=
  ⟨rfl, ((save_rejects_wrong_shape sampleHost (sampleSaveUpstream (.str "\x7b\x7d"))
    "https://famelia.com.au" sampleSaveBody
    (.obj [("customer", .obj [("id", JS.int 7001), ("email", .str "Ann@Example.com")])])
    (.obj [("customer", .obj [("metafield",
      .obj [("id", JS.int 9001), ("type", .str "json"), ("value", .str "\x7b\x7d")])])])
    "\x7b\x7d" sampleNow (by decide) rfl rfl rfl rfl rfl (by decide)).1
      (.obj []) rfl rfl).1⟩

/-! ## The conversion of a `product_id` that has no primitive value -/

/-- An object with an own `toString` property has no primitive value: `Number` of
it throws. -/
theorem toNumber_own_toString (H : Host) (kvs : List (String × JS)) (x : JS)
    (h : lookup "toString" kvs = some x) : toNumber H (.obj kvs) = .error .typeError := by
  simp [toNumber, convertible, h]

theorem allConvertible_iff (xs : List JS) :
    allConvertible xs = true ↔ ∀ x ∈ xs, convertible x = true := by
  induction xs with
  | nil => simp [allConvertible]
  | cons y ys ih => simp [allConvertible, ih]

/-- An array that holds, at any place, a value with no primitive value has none
either: `Number` of it throws. -/
theorem toNumber_array_holding (H : Host) (xs : List JS) (x : JS) (hx : x ∈ xs)
    (h : convertible x = false) : toNumber H (.arr xs) = .error .typeError := by
  have hall : allConvertible xs = false := by
    cases ha : allConvertible xs with
    | false => rfl
    | true => rw [(allConvertible_iff xs).mp ha x hx] at h; cases h
  simp [toNumber, convertible, hall]

/-- Save (line 117) throws on a product whose `product_id` has no primitive value,
whatever the stored wines. -/
theorem upsertWine_not_convertible (H : Host) (ws : List JS) (product : JS) (now : String)
    (hp : isObject product = true)
    (h : convertible (optProp product "product_id") = false) :
    upsertWine H ws product now = .error .typeError := by
  unfold upsertWine
  rw [getProp_of_isObject hp "product_id"]
  simp [toNumber, h]

/-- Save hands no document to the write for the product `sampleOpaque`. -/
theorem saveDocument_sampleOpaque :
    saveDocument sampleHost sampleStore (.str "spring-tasting") .undefined sampleOpaque sampleNow
      = .error .typeError := rfl

set_option maxRecDepth 20000 in
/-- Delete (line 92) answers with the error envelope and writes nothing for the
product `sampleOpaque`. -/
theorem deletePOST_sampleOpaque :
    deletePOST sampleHost sampleEnv
        (sampleDeleteUpstream (.arr [sampleMetafield (.str sampleStoreText)]))
        (some sampleDeleteOpaque)
      = (.serverError .typeError,
         [.getMetafields (.str "famelia-wine.myshopify.com") (JS.int 7001)]) := rfl

end Tasting
